import Mathlib

set_option maxRecDepth 8000

/-!
Verification development for the MDX model previewer core
(chunked binary parser, keyframe-track sampler, node-transform evaluator,
skinning evaluator, particle-emitter spawn accumulator).

Shallow embedding conventions:
* C++ `float`/`double` values are modelled as exact rationals (`ℚ`).  All
  arithmetic reachable by the theorems below is exact in both worlds (small
  integers, halves, quarters), so no rounding gap is relevant.
* `std::sqrt` (used only to normalize quaternions/normals) is modelled by
  `Rat.sqrt`, which agrees with the real square root exactly when the operand
  is a perfect rational square; every normalization evaluated by a theorem in
  this file has a perfect-square length.
* `std::uint32_t` is `ℕ` with explicit `% 2^32` where C++ wrap-around can
  occur; `std::int32_t` is `ℤ`.
* Fallible C++ paths (`return false` / `std::nullopt`) become `Option`.
-/

namespace War3

/-- Vector of three rationals, modelling `Vec3` / `QVector3D`. -/
structure V3 where
  x : ℚ
  y : ℚ
  z : ℚ
  deriving DecidableEq, Repr

/-- Vector of four rationals, modelling `Vec4` / `QVector4D`, and also
quaternions (fields `x y z` vector part, `w` scalar part, matching both the
`Vec4{x,y,z,w}` track payload and `QQuaternion(w,x,y,z)` data). -/
structure V4 where
  x : ℚ
  y : ℚ
  z : ℚ
  w : ℚ
  deriving DecidableEq, Repr

def V3.zero : V3 := ⟨0, 0, 0⟩

def V3.one : V3 := ⟨1, 1, 1⟩

def V3.add (a b : V3) : V3 := ⟨a.x + b.x, a.y + b.y, a.z + b.z⟩

def V3.neg (a : V3) : V3 := ⟨-a.x, -a.y, -a.z⟩

/-- Componentwise product, as used for scale composition in the evaluator. -/
def V3.cmul (a b : V3) : V3 := ⟨a.x * b.x, a.y * b.y, a.z * b.z⟩

/-- Quaternion identity `QQuaternion(1, 0, 0, 0)` (scalar part 1). -/
def V4.qid : V4 := ⟨0, 0, 0, 1⟩

/-- `clampf` from GLModelView.cpp. -/
def clampf (v lo hi : ℚ) : ℚ := if v < lo then lo else if v > hi then hi else v

/-- `lerpf` from GLModelView.cpp. -/
def lerpf (a b t : ℚ) : ℚ := a + (b - a) * t

/-- Scalar cubic Hermite basis, `hermite` from GLModelView.cpp. -/
def hermite (p0 m0 p1 m1 t : ℚ) : ℚ :=
  (2*t^3 - 3*t^2 + 1) * p0 + (t^3 - 2*t^2 + t) * m0 +
    (-2*t^3 + 3*t^2) * p1 + (t^3 - t^2) * m1

/-- Scalar cubic Bezier, `bezier` from GLModelView.cpp. -/
def bezier (p0 c1 c2 p1 t : ℚ) : ℚ :=
  (1-t)*(1-t)*(1-t)*p0 + 3*(1-t)*(1-t)*t*c1 + 3*(1-t)*t*t*c2 + t*t*t*p1

def lerpVec3 (a b : V3) (t : ℚ) : V3 :=
  ⟨lerpf a.x b.x t, lerpf a.y b.y t, lerpf a.z b.z t⟩

def hermiteVec3 (p0 m0 p1 m1 : V3) (t : ℚ) : V3 :=
  ⟨hermite p0.x m0.x p1.x m1.x t, hermite p0.y m0.y p1.y m1.y t,
   hermite p0.z m0.z p1.z m1.z t⟩

def bezierVec3 (p0 c1 c2 p1 : V3) (t : ℚ) : V3 :=
  ⟨bezier p0.x c1.x c2.x p1.x t, bezier p0.y c1.y c2.y p1.y t,
   bezier p0.z c1.z c2.z p1.z t⟩

def lerpVec4 (a b : V4) (t : ℚ) : V4 :=
  ⟨lerpf a.x b.x t, lerpf a.y b.y t, lerpf a.z b.z t, lerpf a.w b.w t⟩

def dotQuat (a b : V4) : ℚ := a.x*b.x + a.y*b.y + a.z*b.z + a.w*b.w

def V4.negate (q : V4) : V4 := ⟨-q.x, -q.y, -q.z, -q.w⟩

def V4.lengthSq (q : V4) : ℚ := q.x*q.x + q.y*q.y + q.z*q.z + q.w*q.w

/-- Kernel-evaluable integer square root: the largest `k ≤ n` with
`k * k ≤ n` (agrees with `Nat.sqrt`, which is well-founded-recursive and
does not reduce definitionally). -/
def natSqrt (n : ℕ) : ℕ :=
  (List.range (n + 1)).foldl (fun acc k => if k * k ≤ n then k else acc) 0

/-- Rational square root used to model `std::sqrt` on nonnegative operands:
exact whenever numerator and denominator are perfect squares — which holds
for every normalization a theorem in this file evaluates — and a floor-like
approximation otherwise (the C++ float sqrt is approximate there too). -/
def ratSqrt (q : ℚ) : ℚ := mkRat (natSqrt q.num.toNat) (natSqrt q.den)

/-- `normalizeQuat` from GLModelView.cpp: divide by the Euclidean length,
returning `(0,0,0,1)` when the length is (near) zero. -/
def normalizeQuat (q : V4) : V4 :=
  let len : ℚ := ratSqrt q.lengthSq
  if len ≤ 1/1000000 then ⟨0, 0, 0, 1⟩
  else ⟨q.x / len, q.y / len, q.z / len, q.w / len⟩

/-- `slerpQuat` from GLModelView.cpp.  The near-parallel branch
(`dot > 0.95`) is the code's normalized linear blend, modelled exactly.  The
far-angle branch uses `acos`/`sin` weights which are transcendental and lie
outside ℚ; no claim in this file samples a quaternion track strictly between
two distinct keys, so that branch (never evaluated below) is modelled by the
same normalized linear blend. -/
def slerpQuat (a b : V4) (t : ℚ) (invertIfNecessary : Bool) : V4 :=
  let d0 := dotQuat a b
  let b' := if invertIfNecessary ∧ d0 < 0 then b.negate else b
  let d := if invertIfNecessary ∧ d0 < 0 then -d0 else d0
  if d > 95/100 then normalizeQuat (lerpVec4 a b' t)
  else normalizeQuat (lerpVec4 a b' t)

/-- Hamilton product in Qt's `QQuaternion` convention:
`(w1,v1)*(w2,v2) = (w1 w2 − v1·v2, w1 v2 + w2 v1 + v1 × v2)`. -/
def qmul (a b : V4) : V4 :=
  ⟨a.w * b.x + a.x * b.w + a.y * b.z - a.z * b.y,
   a.w * b.y + a.y * b.w + a.z * b.x - a.x * b.z,
   a.w * b.z + a.z * b.w + a.x * b.y - a.y * b.x,
   a.w * b.w - a.x * b.x - a.y * b.y - a.z * b.z⟩

/-- `QQuaternion::conjugated()`. -/
def qconj (q : V4) : V4 := ⟨-q.x, -q.y, -q.z, q.w⟩

/-- `QQuaternion::normalize()`: leaves the quaternion unchanged when its
squared length is (fuzzily) 1 or 0, otherwise divides by the length.
Modelled with exact comparisons and `ratSqrt` (exact on every use below). -/
def qnormalizeQt (q : V4) : V4 :=
  let len2 := q.lengthSq
  if len2 = 1 ∨ len2 = 0 then q
  else
    let len := ratSqrt len2
    ⟨q.x / len, q.y / len, q.z / len, q.w / len⟩

/-- Unsigned 32-bit subtraction `a - b` as in C++ `uint32_t` arithmetic
(wraps modulo `2^32`); used where the sampler subtracts key times. -/
def u32sub (a b : ℕ) : ℕ := (((a : ℤ) - (b : ℤ)) % (2^32 : ℤ)).toNat

/-- `ModelData::MdxInterp`. -/
inductive MdxInterp where
  | None
  | Linear
  | Hermite
  | Bezier
  deriving DecidableEq, Repr

/-- `ModelData::MdxTrackKey<T>`: keyframe time (u32 milliseconds), value and
Hermite/Bezier tangents. -/
structure MdxTrackKey (α : Type) where
  timeMs : ℕ
  value : α
  inTan : α
  outTan : α
  deriving DecidableEq, Repr

/-- `ModelData::MdxTrack<T>`. -/
structure MdxTrack (α : Type) where
  interp : MdxInterp
  globalSeqId : ℤ
  keys : List (MdxTrackKey α)
  deriving DecidableEq, Repr

/-- Track with no keys, the default-constructed `MdxTrack`. -/
def emptyTrack {α : Type} : MdxTrack α := ⟨MdxInterp.None, -1, []⟩

/-- The global-sequence time remap shared by all three samplers: when the
track names a global sequence of nonzero duration, the query time is reduced
modulo that duration (GLModelView.cpp lines 273-278 and twins). -/
def remapTrackTime (globalSeqId : ℤ) (gseqs : List ℕ) (timeMs : ℕ) : ℕ :=
  if 0 ≤ globalSeqId ∧ globalSeqId.toNat < gseqs.length then
    let len := gseqs.getD globalSeqId.toNat 0
    if len ≠ 0 then timeMs % len else timeMs
  else timeMs

/-- The samplers' linear bracketing scan:
`std::size_t hi = 1; while (hi < keys.size() && timeMs > keys[hi].timeMs) ++hi;`.
Structured with explicit fuel so the kernel can evaluate it; the entry
point `scanHi` passes `keys.length`, which the loop (advancing `hi` by one
while `hi < keys.length`) can never exhaust. -/
def scanHiFuel {α : Type} (keys : List (MdxTrackKey α)) (timeMs : ℕ) : ℕ → ℕ → ℕ
  | 0, hi => hi
  | fuel + 1, hi =>
    if h : hi < keys.length then
      if timeMs > (keys.get ⟨hi, h⟩).timeMs then scanHiFuel keys timeMs fuel (hi + 1) else hi
    else hi

/-- The bracketing scan from `hi = 1` as the samplers invoke it. -/
def scanHi {α : Type} (keys : List (MdxTrackKey α)) (timeMs : ℕ) (hi : ℕ) : ℕ :=
  scanHiFuel keys timeMs keys.length hi

/-- `sampleTrackFloat` from GLModelView.cpp.  `gseqs` is
`model.globalSequencesMs` (the only part of the model the sampler reads). -/
def sampleTrackFloat (tr : MdxTrack ℚ) (timeMs0 : ℕ) (defV : ℚ) (gseqs : List ℕ) : ℚ :=
  match tr.keys with
  | [] => defV
  | k0 :: rest =>
    let timeMs := remapTrackTime tr.globalSeqId gseqs timeMs0
    let keys := k0 :: rest
    let back := keys.getLast (by simp)
    if timeMs ≤ k0.timeMs then k0.value
    else if timeMs ≥ back.timeMs then back.value
    else
      let hi := scanHi keys timeMs 1
      if hhi : hi < keys.length then
        let ka := keys.getD (hi - 1) k0
        let kb := keys.get ⟨hi, hhi⟩
        let denom : ℚ := (u32sub kb.timeMs ka.timeMs : ℕ)
        let t : ℚ := if denom > 0 then ((u32sub timeMs ka.timeMs : ℕ) : ℚ) / denom else 0
        match tr.interp with
        | .None => ka.value
        | .Linear => lerpf ka.value kb.value t
        | .Hermite => hermite ka.value ka.outTan kb.value kb.inTan t
        | .Bezier => bezier ka.value ka.outTan kb.inTan kb.value t
      else back.value

/-- `sampleTrackVec3` from GLModelView.cpp (componentwise interpolation). -/
def sampleTrackVec3 (tr : MdxTrack V3) (timeMs0 : ℕ) (defV : V3) (gseqs : List ℕ) : V3 :=
  match tr.keys with
  | [] => defV
  | k0 :: rest =>
    let timeMs := remapTrackTime tr.globalSeqId gseqs timeMs0
    let keys := k0 :: rest
    let back := keys.getLast (by simp)
    if timeMs ≤ k0.timeMs then k0.value
    else if timeMs ≥ back.timeMs then back.value
    else
      let hi := scanHi keys timeMs 1
      if hhi : hi < keys.length then
        let ka := keys.getD (hi - 1) k0
        let kb := keys.get ⟨hi, hhi⟩
        let denom : ℚ := (u32sub kb.timeMs ka.timeMs : ℕ)
        let t : ℚ := if denom > 0 then ((u32sub timeMs ka.timeMs : ℕ) : ℚ) / denom else 0
        match tr.interp with
        | .None => ka.value
        | .Linear => lerpVec3 ka.value kb.value t
        | .Hermite => hermiteVec3 ka.value ka.outTan kb.value kb.inTan t
        | .Bezier => bezierVec3 ka.value ka.outTan kb.inTan kb.value t
      else back.value

/-- `sampleTrackQuat` from GLModelView.cpp: quaternion sampling; the clamp
and fallback branches return the *normalized* key value, and interpolation
composes `slerpQuat` calls. -/
def sampleTrackQuat (tr : MdxTrack V4) (timeMs0 : ℕ) (defV : V4) (gseqs : List ℕ) : V4 :=
  match tr.keys with
  | [] => defV
  | k0 :: rest =>
    let timeMs := remapTrackTime tr.globalSeqId gseqs timeMs0
    let keys := k0 :: rest
    let back := keys.getLast (by simp)
    if timeMs ≤ k0.timeMs then normalizeQuat k0.value
    else if timeMs ≥ back.timeMs then normalizeQuat back.value
    else
      let hi := scanHi keys timeMs 1
      if hhi : hi < keys.length then
        let ka := keys.getD (hi - 1) k0
        let kb := keys.get ⟨hi, hhi⟩
        let denom : ℚ := (u32sub kb.timeMs ka.timeMs : ℕ)
        let t : ℚ := if denom > 0 then ((u32sub timeMs ka.timeMs : ℕ) : ℚ) / denom else 0
        match tr.interp with
        | .None => normalizeQuat ka.value
        | .Linear => slerpQuat ka.value kb.value t true
        | .Hermite =>
          let s := slerpQuat ka.value kb.value t false
          let sTan := slerpQuat ka.outTan kb.inTan t false
          slerpQuat s sTan (2 * t * (1 - t)) false
        | .Bezier =>
          let s0 := slerpQuat ka.value ka.outTan t false
          let s1 := slerpQuat ka.outTan kb.inTan t false
          let s2 := slerpQuat kb.inTan kb.value t false
          let s3 := slerpQuat s0 s1 t false
          let s4 := slerpQuat s1 s2 t false
          slerpQuat s3 s4 t false
      else normalizeQuat back.value

/-- 4x4 rational matrix, modelling `QMatrix4x4` (row `i`, column `j` entry
`aij`). -/
structure M4 where
  a00 : ℚ
  a01 : ℚ
  a02 : ℚ
  a03 : ℚ
  a10 : ℚ
  a11 : ℚ
  a12 : ℚ
  a13 : ℚ
  a20 : ℚ
  a21 : ℚ
  a22 : ℚ
  a23 : ℚ
  a30 : ℚ
  a31 : ℚ
  a32 : ℚ
  a33 : ℚ
  deriving DecidableEq, Repr

/-- Identity matrix (`QMatrix4x4::setToIdentity`). -/
def idM4 : M4 := ⟨1,0,0,0, 0,1,0,0, 0,0,1,0, 0,0,0,1⟩

/-- Matrix product `A * B`. -/
def M4.mul (A B : M4) : M4 :=
  ⟨A.a00*B.a00 + A.a01*B.a10 + A.a02*B.a20 + A.a03*B.a30,
   A.a00*B.a01 + A.a01*B.a11 + A.a02*B.a21 + A.a03*B.a31,
   A.a00*B.a02 + A.a01*B.a12 + A.a02*B.a22 + A.a03*B.a32,
   A.a00*B.a03 + A.a01*B.a13 + A.a02*B.a23 + A.a03*B.a33,
   A.a10*B.a00 + A.a11*B.a10 + A.a12*B.a20 + A.a13*B.a30,
   A.a10*B.a01 + A.a11*B.a11 + A.a12*B.a21 + A.a13*B.a31,
   A.a10*B.a02 + A.a11*B.a12 + A.a12*B.a22 + A.a13*B.a32,
   A.a10*B.a03 + A.a11*B.a13 + A.a12*B.a23 + A.a13*B.a33,
   A.a20*B.a00 + A.a21*B.a10 + A.a22*B.a20 + A.a23*B.a30,
   A.a20*B.a01 + A.a21*B.a11 + A.a22*B.a21 + A.a23*B.a31,
   A.a20*B.a02 + A.a21*B.a12 + A.a22*B.a22 + A.a23*B.a32,
   A.a20*B.a03 + A.a21*B.a13 + A.a22*B.a23 + A.a23*B.a33,
   A.a30*B.a00 + A.a31*B.a10 + A.a32*B.a20 + A.a33*B.a30,
   A.a30*B.a01 + A.a31*B.a11 + A.a32*B.a21 + A.a33*B.a31,
   A.a30*B.a02 + A.a31*B.a12 + A.a32*B.a22 + A.a33*B.a32,
   A.a30*B.a03 + A.a31*B.a13 + A.a32*B.a23 + A.a33*B.a33⟩

/-- Matrix-vector product `A * v` (`QMatrix4x4 * QVector4D`). -/
def M4.mulVec4 (A : M4) (v : V4) : V4 :=
  ⟨A.a00*v.x + A.a01*v.y + A.a02*v.z + A.a03*v.w,
   A.a10*v.x + A.a11*v.y + A.a12*v.z + A.a13*v.w,
   A.a20*v.x + A.a21*v.y + A.a22*v.z + A.a23*v.w,
   A.a30*v.x + A.a31*v.y + A.a32*v.z + A.a33*v.w⟩

/-- Translation matrix, the factor `QMatrix4x4::translate(t)` multiplies in. -/
def translateM (t : V3) : M4 := ⟨1,0,0,t.x, 0,1,0,t.y, 0,0,1,t.z, 0,0,0,1⟩

/-- Scale matrix, the factor `QMatrix4x4::scale(s)` multiplies in. -/
def scaleM (s : V3) : M4 := ⟨s.x,0,0,0, 0,s.y,0,0, 0,0,s.z,0, 0,0,0,1⟩

/-- Rotation matrix of a (unit) quaternion, the factor
`QMatrix4x4::rotate(q)` multiplies in. -/
def quatToM4 (q : V4) : M4 :=
  ⟨1 - 2*(q.y*q.y + q.z*q.z), 2*(q.x*q.y - q.z*q.w), 2*(q.x*q.z + q.y*q.w), 0,
   2*(q.x*q.y + q.z*q.w), 1 - 2*(q.x*q.x + q.z*q.z), 2*(q.y*q.z - q.x*q.w), 0,
   2*(q.x*q.z - q.y*q.w), 2*(q.y*q.z + q.x*q.w), 1 - 2*(q.x*q.x + q.y*q.y), 0,
   0, 0, 0, 1⟩

/-- `ModelVertex` (ModelData.h): position, normal (default `(0,0,1)`), UV. -/
structure ModelVertex where
  px : ℚ := 0
  py : ℚ := 0
  pz : ℚ := 0
  nx : ℚ := 0
  ny : ℚ := 0
  nz : ℚ := 1
  u : ℚ := 0
  v : ℚ := 0
  deriving DecidableEq, Repr

/-- Default-constructed `ModelVertex`. -/
def ModelVertex.dflt : ModelVertex := {}

/-- `ModelLayer` (ModelData.h). -/
structure ModelLayer where
  filterMode : ℕ := 0
  shadingFlags : ℕ := 0
  textureId : ℕ := 0
  coordId : ℕ := 0
  alpha : ℚ := 1
  deriving DecidableEq, Repr

/-- `ModelMaterial` (ModelData.h): preview keeps only the first layer. -/
structure ModelMaterial where
  priorityPlane : ℤ := 0
  flags : ℕ := 0
  layer : ModelLayer := {}
  deriving DecidableEq, Repr

/-- `SubMesh` (ModelData.h). -/
structure SubMesh where
  indexOffset : ℕ := 0
  indexCount : ℕ := 0
  materialId : ℕ := 0
  deriving DecidableEq, Repr

/-- `ModelData::SkinGroup`: the unweighted bone-index list of one matrix
group. -/
structure SkinGroup where
  nodeIndices : List ℤ := []
  deriving DecidableEq, Repr

/-- `ModelData::Node` (name/type strings omitted: no claim reads them). -/
structure Node where
  nodeId : ℤ := -1
  parentId : ℤ := -1
  flags : ℕ := 0
  pivot : V3 := V3.zero
  trackTranslation : MdxTrack V3 := emptyTrack
  trackRotation : MdxTrack V4 := emptyTrack
  trackScaling : MdxTrack V3 := emptyTrack
  deriving DecidableEq, Repr

/-- Default-constructed `ModelData::Node`. -/
def Node.dflt : Node := {}

/-- `ModelData::ParticleEmitter2` (name string, segment color/alpha/scale
and sprite-interval tables omitted: no claim below reads them). -/
structure Emitter2 where
  objectId : ℤ := -1
  parentId : ℤ := -1
  flags : ℕ := 0
  speed : ℚ := 0
  variation : ℚ := 0
  latitude : ℚ := 0
  gravity : ℚ := 0
  lifespan : ℚ := 0
  emissionRate : ℚ := 0
  width : ℚ := 0
  length : ℚ := 0
  filterMode : ℕ := 0
  rows : ℕ := 1
  columns : ℕ := 1
  headOrTail : ℕ := 0
  tailLength : ℚ := 0
  timeMiddle : ℚ := 1/2
  trackSpeed : MdxTrack ℚ := emptyTrack
  trackEmissionRate : MdxTrack ℚ := emptyTrack
  trackGravity : MdxTrack ℚ := emptyTrack
  trackLifespan : MdxTrack ℚ := emptyTrack
  trackVisibility : MdxTrack ℚ := emptyTrack
  trackVariation : MdxTrack ℚ := emptyTrack
  trackLatitude : MdxTrack ℚ := emptyTrack
  trackWidth : MdxTrack ℚ := emptyTrack
  trackLength : MdxTrack ℚ := emptyTrack
  deriving DecidableEq, Repr

/-- `ModelData` (ModelData.h).  Sequences, textures and the parse-time
diagnostics (`geosetDiagnostics`, logging) are omitted: they never feed any
claim and never change control flow of the modelled code. -/
structure ModelData where
  vertices : List ModelVertex := []
  bindVertices : List ModelVertex := []
  indices : List ℕ := []
  subMeshes : List SubMesh := []
  geosetCount : ℕ := 0
  materials : List ModelMaterial := []
  boundsMin : V3 := V3.zero
  boundsMax : V3 := V3.zero
  hasBounds : Bool := false
  mdxVersion : ℕ := 800
  globalSequencesMs : List ℕ := []
  pivots : List V3 := []
  nodes : List Node := []
  boneNodeIds : List ℤ := []
  vertexGroups : List ℕ := []
  skinGroups : List SkinGroup := []
  emitters2 : List Emitter2 := []
  deriving DecidableEq, Repr

/-! ## Skinning evaluator (GLModelView.cpp, `updateSkinning`) -/

/-- Lines 1386-1395: map bone order to the bone node's world matrix
(`boneWorld[bi] = nodeWorldMat_[boneNodeIds[bi]]`, identity when the node id
is out of range). -/
def boneWorldOf (boneNodeIds : List ℤ) (nodeWorldMat : List M4) : List M4 :=
  boneNodeIds.map fun nid =>
    if 0 ≤ nid ∧ nid.toNat < nodeWorldMat.length then nodeWorldMat.getD nid.toNat idM4
    else idM4

/-- Lines 1399-1410: `boneMapIsIdentity` — the bone list is nonempty and
`boneNodeIds[i] == i` for every declared bone. -/
def boneMapIsIdentity (boneNodeIds : List ℤ) : Bool :=
  !boneNodeIds.isEmpty &&
    (List.range boneNodeIds.length).all fun i => boneNodeIds.getD i 0 = (i : ℤ)

/-- Lines 1415-1418: running maximum over every skin-group index, seeded
with `-1` (`int maxIdx = -1; ... if (idx > maxIdx) maxIdx = idx;`). -/
def skinMaxIdx (skinGroups : List SkinGroup) : ℤ :=
  skinGroups.foldl
    (fun m g => g.nodeIndices.foldl (fun m ix => if ix > m then ix else m) m) (-1)

/-- Lines 1412-1421: the document-level index-space detection.  Bone-order
interpretation is chosen iff the bone map is the identity, the bone table is
nonempty, and the running maximum skin index is below the bone count. -/
def skinIndicesAreBoneIndices (boneNodeIds : List ℤ) (skinGroups : List SkinGroup) : Bool :=
  let s := boneMapIsIdentity boneNodeIds && !boneNodeIds.isEmpty
  if s then !(skinMaxIdx skinGroups ≥ (boneNodeIds.length : ℤ)) else false

/-- Line 1423: the matrix table the per-vertex blend indexes into. -/
def skinMatsOf (model : ModelData) (nodeWorldMat : List M4) : List M4 :=
  if skinIndicesAreBoneIndices model.boneNodeIds model.skinGroups then
    boneWorldOf model.boneNodeIds nodeWorldMat
  else nodeWorldMat

/-- `QVector3D::normalize()` on the summed normal: divide by the Euclidean
length (`ratSqrt`, exact on perfect squares; every evaluated use below is
either on the fallback branch or a perfect square). -/
def normalizeV3 (v : V3) : V3 :=
  let len := ratSqrt (v.x*v.x + v.y*v.y + v.z*v.z)
  ⟨v.x / len, v.y / len, v.z / len⟩

/-- `skinAverage` (GLModelView.cpp lines 1435-1488): take up to
`maxBones = (size > 4 ? 8 : 4)` entries, skip out-of-range indices
(duplicates are NOT skipped, per the code's own comment), sum the
transformed position/normal, divide the position by the *declared*
`boneNumber = min(size, maxBones)`, and normalize the summed normal with a
`(0,0,1)` fallback.  Returns `none` where the C++ returns `false` (caller
then keeps the bind pose). -/
def skinAverage (skinMats : List M4) (base : ModelVertex) (group : SkinGroup) :
    Option ModelVertex :=
  if skinMats.isEmpty then none
  else
    let maxBones : ℕ := if group.nodeIndices.length > 4 then 8 else 4
    let boneNumber : ℕ := min group.nodeIndices.length maxBones
    if boneNumber = 0 then none
    else
      let p4 : V4 := ⟨base.px, base.py, base.pz, 1⟩
      let n4 : V4 := ⟨base.nx, base.ny, base.nz, 0⟩
      let sums := (group.nodeIndices.take boneNumber).foldl
        (fun (acc : V4 × V4) ix =>
          if 0 ≤ ix ∧ ix.toNat < skinMats.length then
            let m := skinMats.getD ix.toNat idM4
            (⟨acc.1.x + (m.mulVec4 p4).x, acc.1.y + (m.mulVec4 p4).y,
              acc.1.z + (m.mulVec4 p4).z, acc.1.w + (m.mulVec4 p4).w⟩,
             ⟨acc.2.x + (m.mulVec4 n4).x, acc.2.y + (m.mulVec4 n4).y,
              acc.2.z + (m.mulVec4 n4).z, acc.2.w + (m.mulVec4 n4).w⟩)
          else acc)
        (⟨0,0,0,0⟩, ⟨0,0,0,0⟩)
      let inv : ℚ := 1 / (boneNumber : ℚ)
      let avgP : V4 := ⟨sums.1.x * inv, sums.1.y * inv, sums.1.z * inv, sums.1.w * inv⟩
      let nsum : V3 := ⟨sums.2.x, sums.2.y, sums.2.z⟩
      let nn : V3 :=
        if nsum.x*nsum.x + nsum.y*nsum.y + nsum.z*nsum.z > 1/1000000 then normalizeV3 nsum
        else ⟨0, 0, 1⟩
      some { base with px := avgP.x, py := avgP.y, pz := avgP.z,
                       nx := nn.x, ny := nn.y, nz := nn.z }

/-- One iteration of the per-vertex loop (GLModelView.cpp lines 1490-1520):
bind-pose passthrough when the vertex has no group slot, the group id is out
of range, the group is empty, or `skinAverage` declines. -/
def skinVertexAt (skinMats : List M4) (model : ModelData) (i : ℕ) : ModelVertex :=
  let base := model.bindVertices.getD i ModelVertex.dflt
  if i ≥ model.vertexGroups.length then base
  else
    let gid := model.vertexGroups.getD i 0
    if gid ≥ model.skinGroups.length then base
    else
      let group := model.skinGroups.getD gid ⟨[]⟩
      if group.nodeIndices.isEmpty then base
      else
        match skinAverage skinMats base group with
        | some v => v
        | none => base

/-- The whole per-vertex loop: the posed vertex list uploaded to the GPU
(the GL buffer upload and the early-outs on missing GL state are external
to the core). -/
def updateSkinnedVertices (skinMats : List M4) (model : ModelData) : List ModelVertex :=
  (List.range model.bindVertices.length).map (skinVertexAt skinMats model)

/-! ## Transform evaluator (GLModelView.cpp, `buildNodeWorldCached`)

The C++ keeps seven parallel per-node arrays (`nodeWorldMat_`,
`nodeWorldLoc_`, `nodeInvWorldLoc_`, `nodeWorldRot_`, `nodeInvWorldRot_`,
`nodeWorldScale_`, `nodeInvWorldScale_`); the model packs the seven entries
of one node into a `NodeVals` record and keeps one list, an equivalent
representation of the same state. -/

/-- One node's slice of the seven evaluator output arrays. -/
structure NodeVals where
  worldMat : M4 := idM4
  worldLoc : V3 := V3.zero
  invWorldLoc : V3 := V3.zero
  worldRot : V4 := V4.qid
  invWorldRot : V4 := V4.qid
  worldScale : V3 := V3.one
  invWorldScale : V3 := V3.one
  deriving DecidableEq, Repr

/-- The values the arrays are initialized with (lines 1240-1248), which are
also exactly the values a cycle-forced node receives (lines 1261-1267). -/
def NodeVals.init : NodeVals := {}

/-- `invSafe` (line 1358): reciprocal with a zero guard at `1e-8`. -/
def invSafe (v : ℚ) : ℚ := if |v| > 1/100000000 then 1/v else 0

/-- The body of `buildNode` after the parent lookup (lines 1296-1359):
sample the node's tracks at `timeMs`, apply the three inheritance-
suppression flags, compose the pivot-centered local matrix with the parent
world values `pv`, and produce this node's seven outputs.  `oldWorldLoc` is
the value `nodeWorldLoc_[idx]` holds just before the write — the previous
evaluation's output for this node (read only by the DontInheritTranslation
branch). -/
def computeNodeVals (pv : NodeVals) (oldWorldLoc : V3) (nd : Node) (timeMs : ℕ)
    (gseqs : List ℕ) : NodeVals :=
  let t := sampleTrackVec3 nd.trackTranslation timeMs V3.zero gseqs
  let s := sampleTrackVec3 nd.trackScaling timeMs V3.one gseqs
  let r := sampleTrackQuat nd.trackRotation timeMs ⟨0, 0, 0, 1⟩ gseqs
  let pivot := nd.pivot
  let localRot := qnormalizeQt r
  let dontT := nd.flags &&& 1 ≠ 0
  let dontR := nd.flags &&& 4 ≠ 0
  let dontS := nd.flags &&& 2 ≠ 0
  let computedLoc := if dontT then (pv.invWorldLoc.add oldWorldLoc).add t else t
  let computedScale := if dontS then pv.invWorldScale.cmul s else s
  let computedRot := if dontR then qmul pv.invWorldRot localRot else localRot
  let localM := ((((translateM computedLoc).mul (translateM pivot)).mul
      (quatToM4 computedRot)).mul (scaleM computedScale)).mul (translateM pivot.neg)
  let worldM := pv.worldMat.mul localM
  let wlp := worldM.mulVec4 ⟨pivot.x, pivot.y, pivot.z, 1⟩
  let wl : V3 := ⟨wlp.x, wlp.y, wlp.z⟩
  let wr := qnormalizeQt (qmul pv.worldRot computedRot)
  let ws := pv.worldScale.cmul computedScale
  { worldMat := worldM, worldLoc := wl, invWorldLoc := wl.neg,
    worldRot := wr, invWorldRot := qconj wr,
    worldScale := ws,
    invWorldScale := ⟨invSafe ws.x, invSafe ws.y, invSafe ws.z⟩ }

/-- The recursive `buildNode` lambda (lines 1253-1362).  `visit` is the
per-call `state` vector (0 unvisited, 1 in progress, 2 done).  The C++
recursion can in principle run unboundedly on states outside its reach, so
the model carries explicit fuel; `none` models a non-terminating run. -/
def buildNode (model : ModelData) (timeMs : ℕ) :
    ℕ → List NodeVals × List ℕ → ℕ → Option (List NodeVals × List ℕ)
  | 0, _, _ => none
  | fuel + 1, (vals, visit), idx =>
    let n := model.nodes.length
    if idx ≥ n then some (vals, visit)
    else if visit.getD idx 0 = 2 then some (vals, visit)
    else if visit.getD idx 0 = 1 then
      some (vals.set idx NodeVals.init, visit.set idx 2)
    else
      let visit1 := visit.set idx 1
      let nd := model.nodes.getD idx Node.dflt
      let parentOk := 0 ≤ nd.parentId ∧ nd.parentId.toNat < n ∧ nd.parentId ≠ (idx : ℤ)
      let recRes :=
        if parentOk then buildNode model timeMs fuel (vals, visit1) nd.parentId.toNat
        else some (vals, visit1)
      match recRes with
      | none => none
      | some (vals1, visit2) =>
        let pv := if parentOk then vals1.getD nd.parentId.toNat NodeVals.init
                  else NodeVals.init
        let oldLoc := (vals1.getD idx NodeVals.init).worldLoc
        let nv := computeNodeVals pv oldLoc nd timeMs model.globalSequencesMs
        some (vals1.set idx nv, visit2.set idx 2)

/-- `buildNodeWorldCached` (lines 1232-1366): reinitialize the arrays when
their size does not match the node count (otherwise keep the previous
evaluation's contents), then run `buildNode` over every node index with a
fresh visit vector.  Fuel `n + 1` bounds the recursion depth, which the C++
call structure never exceeds. -/
def buildNodeWorldCached (model : ModelData) (timeMs : ℕ) (prev : List NodeVals) :
    Option (List NodeVals) :=
  let n := model.nodes.length
  let vals0 := if prev.length ≠ n then List.replicate n NodeVals.init else prev
  let r := (List.range n).foldl
    (fun st i =>
      match st with
      | none => none
      | some s => buildNode model timeMs (n + 1) s i)
    (some (vals0, List.replicate n 0))
  match r with
  | none => none
  | some (vals, _) => some vals

/-! ## Particle emitter spawn accumulator (GLModelView.cpp, `updateEmitters`) -/

/-- C++ `int(double)` conversion: truncation toward zero. -/
def truncToInt (q : ℚ) : ℤ := q.num / (q.den : ℤ)

/-- The spawn bookkeeping of one `updateEmitters` tick for one emitter
(lines 1011-1027 and 1056-1123): visibility gate, sampled emission rate
doubled (`* 2.0f`, line 1022), fractional accumulator, truncation to a
spawn count, remainder retention, the 200-per-tick safety cap, and the
head/tail spawn multiplicity.  Returns the new accumulator and the number
of particles pushed this tick.  Particle attributes (RNG position/velocity)
and pool aging do not influence the spawn count and are outside this
definition. -/
def emitterSpawnTick (e : Emitter2) (gseqs : List ℕ) (timeMs : ℕ) (dtSeconds : ℚ)
    (forceParticleVisible : Bool) (accum : ℚ) : ℚ × ℕ :=
  let vis := if forceParticleVisible then 1
             else clampf (sampleTrackFloat e.trackVisibility timeMs 1 gseqs) 0 1
  let emissionRate := max 0 (sampleTrackFloat e.trackEmissionRate timeMs e.emissionRate gseqs) * 2
  if vis > 1/1000 ∧ emissionRate > 0 then
    let accum1 := accum + emissionRate * dtSeconds
    let toSpawn := truncToInt accum1
    if toSpawn > 0 then
      let accum2 := accum1 - (toSpawn : ℚ)
      let capped := min toSpawn 200
      let wantHead := e.headOrTail = 0 ∨ e.headOrTail = 2
      let wantTail := e.headOrTail = 1 ∨ e.headOrTail = 2
      let perCount := (if wantHead then 1 else 0) + (if wantTail then 1 else 0)
      (accum2, capped.toNat * perCount)
    else (accum1, 0)
  else (accum, 0)

/-- Iterate `emitterSpawnTick` for a number of equal ticks (the emission
tracks of every claim below are constant, so holding the sample time fixed
matches the code's advancing clock), returning the final accumulator and
the per-tick spawn counts in order. -/
def emitterSpawnRun (e : Emitter2) (gseqs : List ℕ) (timeMs : ℕ) (dtSeconds : ℚ)
    (forceParticleVisible : Bool) : ℕ → ℚ → ℚ × List ℕ
  | 0, accum => (accum, [])
  | k + 1, accum =>
    let r1 := emitterSpawnTick e gseqs timeMs dtSeconds forceParticleVisible accum
    let rrest := emitterSpawnRun e gseqs timeMs dtSeconds forceParticleVisible k r1.1
    (rrest.1, r1.2 :: rrest.2)

/-! ## Definitions written from the SPEC's words (for refinement claims)

The two definitions below are deliberately transcribed from the
specification text, not from the source, so that the code-derived
definitions above can be compared against them. -/

/-- Modelled from the spec (claim C3 wording): take up to `maxBones`
entries, skip duplicate indices already consumed and indices that resolve
to no transform, transform position and normal by each remaining bone,
sum, and divide by the count of bones actually used. -/
def skinAverageSpecStated (skinMats : List M4) (base : ModelVertex) (group : SkinGroup) :
    Option ModelVertex :=
  let maxBones : ℕ := if group.nodeIndices.length > 4 then 8 else 4
  let used := (group.nodeIndices.take maxBones).foldl
    (fun (acc : List ℤ) ix =>
      if ix ∈ acc then acc
      else if 0 ≤ ix ∧ ix.toNat < skinMats.length then acc ++ [ix]
      else acc) []
  if used.length = 0 then none
  else
    let p4 : V4 := ⟨base.px, base.py, base.pz, 1⟩
    let n4 : V4 := ⟨base.nx, base.ny, base.nz, 0⟩
    let sumP := used.foldl
      (fun (acc : V4) ix =>
        let m := skinMats.getD ix.toNat idM4
        ⟨acc.x + (m.mulVec4 p4).x, acc.y + (m.mulVec4 p4).y,
         acc.z + (m.mulVec4 p4).z, acc.w + (m.mulVec4 p4).w⟩) ⟨0,0,0,0⟩
    let sumN := used.foldl
      (fun (acc : V4) ix =>
        let m := skinMats.getD ix.toNat idM4
        ⟨acc.x + (m.mulVec4 n4).x, acc.y + (m.mulVec4 n4).y,
         acc.z + (m.mulVec4 n4).z, acc.w + (m.mulVec4 n4).w⟩) ⟨0,0,0,0⟩
    let inv : ℚ := 1 / (used.length : ℚ)
    some { base with px := sumP.x * inv, py := sumP.y * inv, pz := sumP.z * inv,
                     nx := sumN.x * inv, ny := sumN.y * inv, nz := sumN.z * inv }

/-- Modelled from the spec (claim C4 wording): the condition under which
skin indices are to be read as bone-declaration-order indices — the
bone-order-to-node-id map is the identity for every declared bone AND every
skin-group index lies within the bone list's bounds. -/
def specBoneOrderCondition (boneNodeIds : List ℤ) (skinGroups : List SkinGroup) : Prop :=
  (∀ i < boneNodeIds.length, boneNodeIds.getD i 0 = (i : ℤ)) ∧
    ∀ g ∈ skinGroups, ∀ ix ∈ g.nodeIndices, 0 ≤ ix ∧ ix < (boneNodeIds.length : ℤ)

instance (b : List ℤ) (g : List SkinGroup) : Decidable (specBoneOrderCondition b g) := by
  unfold specBoneOrderCondition
  infer_instance

/-- The amended description of `skinAverage`'s bone selection (claim C3):
the entries actually blended are the first `min(size, maxBones)` entries
with the out-of-range ones dropped — duplicates kept — and the divisor is
the declared `min(size, maxBones)` itself. -/
def skinAverageDeclaredAvg (skinMats : List M4) (base : ModelVertex) (group : SkinGroup) :
    Option ModelVertex :=
  if skinMats.isEmpty then none
  else
    let maxBones : ℕ := if group.nodeIndices.length > 4 then 8 else 4
    let boneNumber : ℕ := min group.nodeIndices.length maxBones
    if boneNumber = 0 then none
    else
      let usable := (group.nodeIndices.take boneNumber).filter
        (fun ix => decide (0 ≤ ix ∧ ix.toNat < skinMats.length))
      let p4 : V4 := ⟨base.px, base.py, base.pz, 1⟩
      let n4 : V4 := ⟨base.nx, base.ny, base.nz, 0⟩
      let sums := usable.foldl
        (fun (acc : V4 × V4) ix =>
          let m := skinMats.getD ix.toNat idM4
          (⟨acc.1.x + (m.mulVec4 p4).x, acc.1.y + (m.mulVec4 p4).y,
            acc.1.z + (m.mulVec4 p4).z, acc.1.w + (m.mulVec4 p4).w⟩,
           ⟨acc.2.x + (m.mulVec4 n4).x, acc.2.y + (m.mulVec4 n4).y,
            acc.2.z + (m.mulVec4 n4).z, acc.2.w + (m.mulVec4 n4).w⟩))
        (⟨0,0,0,0⟩, ⟨0,0,0,0⟩)
      let inv : ℚ := 1 / (boneNumber : ℚ)
      let avgP : V4 := ⟨sums.1.x * inv, sums.1.y * inv, sums.1.z * inv, sums.1.w * inv⟩
      let nsum : V3 := ⟨sums.2.x, sums.2.y, sums.2.z⟩
      let nn : V3 :=
        if nsum.x*nsum.x + nsum.y*nsum.y + nsum.z*nsum.z > 1/1000000 then normalizeV3 nsum
        else ⟨0, 0, 1⟩
      some { base with px := avgP.x, py := avgP.y, pz := avgP.z,
                       nx := nn.x, ny := nn.y, nz := nn.z }

/-! ## Chunk parser (MdxLoader.cpp)

A byte buffer is a `List ℕ` of values below 256.  The bounds-checked
`Reader` becomes pure functions taking the buffer and a position and
returning `Option (value × next position)`; `none` is a failed read. -/

/-- `Reader::readU16` (little-endian). -/
def rdU16 (d : List ℕ) (p : ℕ) : Option (ℕ × ℕ) :=
  if p + 2 ≤ d.length then some (d.getD p 0 + d.getD (p+1) 0 * 256, p + 2) else none

/-- `Reader::readU32` (little-endian). -/
def rdU32 (d : List ℕ) (p : ℕ) : Option (ℕ × ℕ) :=
  if p + 4 ≤ d.length then
    some (d.getD p 0 + d.getD (p+1) 0 * 256 + d.getD (p+2) 0 * 65536 +
          d.getD (p+3) 0 * 16777216, p + 4)
  else none

/-- Reinterpret a u32 bit pattern as a signed 32-bit integer (`qint32(u)`). -/
def i32ofU32 (v : ℕ) : ℤ := if v < 2^31 then (v : ℤ) else (v : ℤ) - 2^32

/-- `Reader::readI32`. -/
def rdI32 (d : List ℕ) (p : ℕ) : Option (ℤ × ℕ) :=
  (rdU32 d p).map fun r => (i32ofU32 r.1, r.2)

/-- Decode an IEEE-754 single-precision bit pattern to an exact rational
(`Reader::readF32`'s bit cast).  Infinities/NaNs (exponent 255) lie outside
ℚ and are mapped to 0; no buffer in this file encodes one. -/
def f32FromBits (b : ℕ) : ℚ :=
  let s : ℚ := if b / 2^31 % 2 = 1 then -1 else 1
  let e : ℕ := b / 2^23 % 256
  let f : ℕ := b % 2^23
  if e = 255 then 0
  else if e = 0 then s * (f : ℕ) / ((2^149 : ℕ) : ℚ)
  else if e ≥ 127 then s * ((2^23 + f : ℕ) : ℚ) * ((2^(e - 127) : ℕ) : ℚ) / ((2^23 : ℕ) : ℚ)
  else s * ((2^23 + f : ℕ) : ℚ) / ((2^(150 - e) : ℕ) : ℚ)

/-- `Reader::readF32`. -/
def rdF32 (d : List ℕ) (p : ℕ) : Option (ℚ × ℕ) :=
  (rdU32 d p).map fun r => (f32FromBits r.1, r.2)

/-- `Reader::readTag` (4 raw bytes). -/
def rdTag (d : List ℕ) (p : ℕ) : Option (List ℕ × ℕ) :=
  if p + 4 ≤ d.length then
    some ([d.getD p 0, d.getD (p+1) 0, d.getD (p+2) 0, d.getD (p+3) 0], p + 4)
  else none

def tagMDLX : List ℕ := [77, 68, 76, 88]

def tagVERS : List ℕ := [86, 69, 82, 83]

def tagGEOS : List ℕ := [71, 69, 79, 83]

def tagVRTX : List ℕ := [86, 82, 84, 88]

def tagNRMS : List ℕ := [78, 82, 77, 83]

def tagPTYP : List ℕ := [80, 84, 89, 80]

def tagPCNT : List ℕ := [80, 67, 78, 84]

def tagPVTX : List ℕ := [80, 86, 84, 88]

def tagGNDX : List ℕ := [71, 78, 68, 88]

def tagMTGC : List ℕ := [77, 84, 71, 67]

def tagMATS : List ℕ := [77, 65, 84, 83]

def tagUVAS : List ℕ := [85, 86, 65, 83]

def tagUVBS : List ℕ := [85, 86, 66, 83]

def tagTANG : List ℕ := [84, 65, 78, 71]

def tagSKIN : List ℕ := [83, 75, 73, 78]

/-- `readArrayTagCount`: expect a specific 4-byte tag, then read a u32
count; any mismatch or short read fails the enclosing sub-parser. -/
def readArrayTagCount (d : List ℕ) (p : ℕ) (expected : List ℕ) : Option (ℕ × ℕ) :=
  match rdTag d p with
  | none => none
  | some (t, p1) => if t = expected then rdU32 d p1 else none

/-- Read `count` float triples (VRTX / NRMS payloads). -/
def rdF32Triples (d : List ℕ) : ℕ → ℕ → Option (List (ℚ × ℚ × ℚ) × ℕ)
  | 0, p => some ([], p)
  | k + 1, p => do
    let (x, p1) ← rdF32 d p
    let (y, p2) ← rdF32 d p1
    let (z, p3) ← rdF32 d p2
    let (rest, p4) ← rdF32Triples d k p3
    some ((x, y, z) :: rest, p4)

/-- Read `count` float pairs (UVBS payload). -/
def rdF32Pairs (d : List ℕ) : ℕ → ℕ → Option (List (ℚ × ℚ) × ℕ)
  | 0, p => some ([], p)
  | k + 1, p => do
    let (x, p1) ← rdF32 d p
    let (y, p2) ← rdF32 d p1
    let (rest, p3) ← rdF32Pairs d k p2
    some ((x, y) :: rest, p3)

/-- Read `count` u32 values. -/
def rdU32s (d : List ℕ) : ℕ → ℕ → Option (List ℕ × ℕ)
  | 0, p => some ([], p)
  | k + 1, p => do
    let (v, p1) ← rdU32 d p
    let (rest, p2) ← rdU32s d k p1
    some (v :: rest, p2)

/-- Read `count` u16 values (PVTX payload). -/
def rdU16s (d : List ℕ) : ℕ → ℕ → Option (List ℕ × ℕ)
  | 0, p => some ([], p)
  | k + 1, p => do
    let (v, p1) ← rdU16 d p
    let (rest, p2) ← rdU16s d k p1
    some (v :: rest, p2)

/-- Read `count` single bytes (GNDX payload). -/
def rdU8s (d : List ℕ) : ℕ → ℕ → Option (List ℕ × ℕ)
  | 0, p => some ([], p)
  | k + 1, p =>
    if p + 1 ≤ d.length then do
      let (rest, p2) ← rdU8s d k (p + 1)
      some (d.getD p 0 :: rest, p2)
    else none

/-- Read `count` i32 values (MATS payload). -/
def rdI32s (d : List ℕ) : ℕ → ℕ → Option (List ℤ × ℕ)
  | 0, p => some ([], p)
  | k + 1, p => do
    let (v, p1) ← rdI32 d p
    let (rest, p2) ← rdI32s d k p1
    some (v :: rest, p2)

/-- The best-effort "skip any extra normals" loop (MdxLoader.cpp lines
306-312): attempt three float reads per surplus normal, stopping silently
(position kept at the last successful read) on a short buffer. -/
def skipExtraNormals (d : List ℕ) : ℕ → ℕ → ℕ
  | 0, p => p
  | k + 1, p =>
    match rdF32 d p with
    | none => p
    | some (_, p1) =>
      match rdF32 d p1 with
      | none => p1
      | some (_, p2) =>
        match rdF32 d p2 with
        | none => p2
        | some (_, p3) => skipExtraNormals d k p3

/-- Build `ModelVertex` records from VRTX positions (normals and UVs keep
their defaults until filled in). -/
def mkVerticesFromPositions (ps : List (ℚ × ℚ × ℚ)) : List ModelVertex :=
  ps.map fun t => { px := t.1, py := t.2.1, pz := t.2.2 }

/-- Overwrite the first `normals.length` vertices' normals (the NRMS fill
loop over `min(vertexCount, normalCount)` entries). -/
def applyNormals : List ModelVertex → List (ℚ × ℚ × ℚ) → List ModelVertex
  | vs, [] => vs
  | [], _ => []
  | v :: vs, n :: ns =>
    { v with nx := n.1, ny := n.2.1, nz := n.2.2 } :: applyNormals vs ns

/-- Overwrite the first `uvs.length` vertices' texture coordinates; the V
coordinate is flipped (`v = 1.0f - v`, UVBS fill loop). -/
def applyUVs : List ModelVertex → List (ℚ × ℚ) → List ModelVertex
  | vs, [] => vs
  | [], _ => []
  | vtx :: vs, uv :: uvs =>
    { vtx with u := uv.1, v := 1 - uv.2 } :: applyUVs vs uvs

/-- The inner `while (groupIndex < matrixGroupCount && remaining == 0)`
walk of the MATS distribution loop (MdxLoader.cpp lines 408-412). -/
def advanceGroupFuel (sizes : List ℕ) : ℕ → ℕ → ℕ → ℕ × ℕ
  | 0, gi, rem => (gi, rem)
  | fuel + 1, gi, rem =>
    if gi < sizes.length ∧ rem = 0 then
      advanceGroupFuel sizes fuel (gi + 1)
        (if gi + 1 < sizes.length then sizes.getD (gi + 1) 0 else 0)
    else (gi, rem)

/-- The walk with the fuel it can never exhaust (`gi` grows by one while
below `sizes.length`). -/
def advanceGroup (sizes : List ℕ) (gi rem : ℕ) : ℕ × ℕ :=
  advanceGroupFuel sizes (sizes.length + 1) gi rem

/-- The MATS distribution loop (MdxLoader.cpp lines 397-419): push each
matrix index into the current group, advancing through the MTGC sizes;
indices past the declared groups are dropped. -/
def distributeMats (sizes : List ℕ) : List ℤ → ℕ → ℕ → List SkinGroup → List SkinGroup
  | [], _, _, groups => groups
  | ix :: rest, gi, rem, groups =>
    let gr := advanceGroup sizes gi rem
    let inRange := gr.1 < groups.length
    let groups1 :=
      if inRange then groups.set gr.1 ⟨(groups.getD gr.1 ⟨[]⟩).nodeIndices ++ [ix]⟩
      else groups
    let rem2 := if inRange ∧ gr.2 > 0 then gr.2 - 1 else gr.2
    distributeMats sizes rest gr.1 rem2 groups1

/-- `indexCountToPrimitiveCount` (MdxLoader.cpp lines 135-150). -/
def indexCountToPrimitiveCount (ptype idxCount : ℕ) : ℕ :=
  if ptype = 4 then idxCount / 3
  else if ptype = 5 ∨ ptype = 6 then (if idxCount ≥ 2 then idxCount - 2 else 0)
  else if ptype = 7 then idxCount / 4
  else 0

/-- Triangle-list expansion loop of `appendTrianglesFromPrimitive`
(`break` when the third index runs past the pool). -/
def appendTriList (faces : List ℕ) (startI baseV : ℕ) : ℕ → ℕ → List ℕ
  | 0, _ => []
  | k + 1, t =>
    if startI + t*3 + 2 ≥ faces.length then []
    else
      (baseV + faces.getD (startI + t*3) 0) ::
      (baseV + faces.getD (startI + t*3 + 1) 0) ::
      (baseV + faces.getD (startI + t*3 + 2) 0) ::
      appendTriList faces startI baseV k (t + 1)

/-- Triangle-strip expansion loop (alternating winding). -/
def appendTriStrip (faces : List ℕ) (startI baseV : ℕ) : ℕ → ℕ → List ℕ
  | 0, _ => []
  | k + 1, t =>
    if startI + t + 2 ≥ faces.length then []
    else
      let a := baseV + faces.getD (startI + t) 0
      let b := baseV + faces.getD (startI + t + 1) 0
      let c := baseV + faces.getD (startI + t + 2) 0
      (if t % 2 = 0 then [a, b, c] else [b, a, c]) ++
        appendTriStrip faces startI baseV k (t + 1)

/-- Triangle-fan expansion loop (fixed center). -/
def appendTriFan (faces : List ℕ) (startI baseV center : ℕ) : ℕ → ℕ → List ℕ
  | 0, _ => []
  | k + 1, t =>
    if startI + t + 2 ≥ faces.length then []
    else
      center :: (baseV + faces.getD (startI + t + 1) 0) ::
        (baseV + faces.getD (startI + t + 2) 0) ::
        appendTriFan faces startI baseV center k (t + 1)

/-- Quad-list expansion loop (each quad becomes two triangles). -/
def appendQuads (faces : List ℕ) (startI baseV : ℕ) : ℕ → ℕ → List ℕ
  | 0, _ => []
  | k + 1, q =>
    if startI + q*4 + 3 ≥ faces.length then []
    else
      let a := baseV + faces.getD (startI + q*4) 0
      let b := baseV + faces.getD (startI + q*4 + 1) 0
      let c := baseV + faces.getD (startI + q*4 + 2) 0
      let e := baseV + faces.getD (startI + q*4 + 3) 0
      a :: b :: c :: a :: c :: e :: appendQuads faces startI baseV k (q + 1)

/-- `appendTrianglesFromPrimitive` (MdxLoader.cpp lines 152-236): expand one
primitive group into flat triangles; unknown primitive kinds contribute
nothing. -/
def appendTrianglesFromPrimitive (ptype primCount : ℕ) (srcIndices : List ℕ)
    (start baseVertex : ℕ) : List ℕ :=
  if primCount = 0 then []
  else if ptype = 4 then appendTriList srcIndices start baseVertex primCount 0
  else if ptype = 5 then appendTriStrip srcIndices start baseVertex primCount 0
  else if ptype = 6 then
    if start + 2 ≥ srcIndices.length then []
    else appendTriFan srcIndices start (baseVertex)
      (baseVertex + srcIndices.getD start 0) primCount 0
  else if ptype = 7 then appendQuads srcIndices start baseVertex primCount 0
  else []

/-- The primitive-to-triangle conversion loop at the end of `parseGeoset`
(lines 520-533): walk the zipped PTYP/PCNT groups with a running cursor,
skipping empty groups and stopping when a group overruns the index pool. -/
def convertPrims (faces : List ℕ) : List (ℕ × ℕ) → ℕ → List ℕ
  | [], _ => []
  | (ptype, idxCount) :: rest, cursor =>
    if idxCount = 0 then convertPrims faces rest cursor
    else if cursor + idxCount > faces.length then []
    else
      let primCount := indexCountToPrimitiveCount ptype idxCount
      (if primCount > 0 then appendTrianglesFromPrimitive ptype primCount faces cursor 0
       else []) ++ convertPrims faces rest (cursor + idxCount)

/-- `GeosetParsed` (MdxLoader.cpp lines 238-249; the raw diagnostic copies
are omitted: they never change control flow). -/
structure GeosetParsed where
  vertices : List ModelVertex := []
  triIndices : List ℕ := []
  materialId : ℕ := 0
  vertexGroups : List ℕ := []
  groups : List SkinGroup := []
  deriving DecidableEq, Repr

/-- The `TANG`/`SKIN` trailing-block skip loop for post-v800 geosets
(lines 474-482); fuel-bounded (each iteration consumes at least 8 bytes). -/
def skipTangSkin (d : List ℕ) : ℕ → ℕ → ℕ
  | 0, p => p
  | k + 1, p =>
    match rdTag d p with
    | none => p
    | some (t, p1) =>
      if t = tagTANG ∨ t = tagSKIN then
        match rdU32 d p1 with
        | none => p1
        | some (sz, p2) => if p2 + sz ≤ d.length then skipTangSkin d k (p2 + sz) else p2
      else p

/-- The UVAS set loop (lines 489-518): each set reads a UVBS tag/count,
`min(count, vertexCount)` float pairs, and skips any surplus pairs (a
failed skip is an error).  Only set 0's pairs are returned. -/
def uvasLoop (gsd : List ℕ) (vertexCount : ℕ) : ℕ → ℕ → ℕ → Option (List (ℚ × ℚ) × ℕ)
  | 0, p, _ => some ([], p)
  | k + 1, p, s => do
    let (tcCount, p1) ← readArrayTagCount gsd p tagUVBS
    let pairsToRead := min tcCount vertexCount
    let (uvs, p2) ← rdF32Pairs gsd pairsToRead p1
    let p3 ←
      if tcCount > pairsToRead then
        if p2 + (tcCount - pairsToRead) * 8 ≤ gsd.length then some (p2 + (tcCount - pairsToRead) * 8)
        else none
      else some p2
    let (uvrest, p4) ← uvasLoop gsd vertexCount k p3 (s + 1)
    some ((if s = 0 then uvs else uvrest), p4)

/-- Intermediate state after the geometry sub-blocks of a geoset. -/
structure GsGeom where
  vertexCount : ℕ
  positions : List (ℚ × ℚ × ℚ)
  normals : List (ℚ × ℚ × ℚ)
  ftypes : List ℕ
  fcounts : List ℕ
  faces : List ℕ
  pos : ℕ
  deriving Repr

/-- Intermediate state after the skin sub-blocks of a geoset. -/
structure GsSkin where
  vgroups : List ℕ
  groups : List SkinGroup
  pos : ℕ
  deriving Repr

/-- Intermediate state after the fixed fields and UV sets of a geoset. -/
structure GsTail where
  materialId : ℕ
  uvs0 : List (ℚ × ℚ)
  deriving Repr

/-- First section of `parseGeoset`: the ordered VRTX / NRMS (with
best-effort surplus skip) / PTYP / PCNT / PVTX sub-blocks. -/
def parseGeosetGeom (gsd : List ℕ) : Option GsGeom := do
  let rVC ← readArrayTagCount gsd 0 tagVRTX
  let rPos ← rdF32Triples gsd rVC.1 rVC.2
  let rNC ← readArrayTagCount gsd rPos.2 tagNRMS
  let nRead := min rVC.1 rNC.1
  let rNrm ← rdF32Triples gsd nRead rNC.2
  let p5 := skipExtraNormals gsd (rNC.1 - nRead) rNrm.2
  let rPT ← readArrayTagCount gsd p5 tagPTYP
  let rFT ← rdU32s gsd rPT.1 rPT.2
  let rPC ← readArrayTagCount gsd rFT.2 tagPCNT
  let rFC ← rdU32s gsd rPC.1 rPC.2
  let rFcount ← readArrayTagCount gsd rFC.2 tagPVTX
  let rFaces ← rdU16s gsd rFcount.1 rFcount.2
  some { vertexCount := rVC.1, positions := rPos.1, normals := rNrm.1,
         ftypes := rFT.1, fcounts := rFC.1, faces := rFaces.1, pos := rFaces.2 }

/-- Second section of `parseGeoset`: GNDX / MTGC / MATS and the group
distribution walk. -/
def parseGeosetSkin (gsd : List ℕ) (p : ℕ) : Option GsSkin := do
  let rGC ← readArrayTagCount gsd p tagGNDX
  let rVG ← rdU8s gsd rGC.1 rGC.2
  let rMC ← readArrayTagCount gsd rVG.2 tagMTGC
  let rSizes ← rdU32s gsd rMC.1 rMC.2
  let rMatC ← readArrayTagCount gsd rSizes.2 tagMATS
  let rMats ← rdI32s gsd rMatC.1 rMatC.2
  let groups :=
    distributeMats rSizes.1 rMats.1 0 (if rMC.1 > 0 then rSizes.1.getD 0 0 else 0)
      (List.replicate rMC.1 (⟨[]⟩ : SkinGroup))
  some { vgroups := rVG.1, groups, pos := rMats.2 }

/-- Third section of `parseGeoset`: the fixed header fields, extent skips,
the version-gated LOD/TANG/SKIN region, and the UV sets. -/
def parseGeosetTail (gsd : List ℕ) (mdxVersion vertexCount p : ℕ) : Option GsTail := do
  let rMat ← rdU32 gsd p
  let rSel ← rdU32 gsd rMat.2
  let rSelG ← rdU32 gsd rSel.2
  let p21 ← if rSelG.2 + 28 ≤ gsd.length then some (rSelG.2 + 28) else none
  let rExt ← rdU32 gsd p21
  let p23 ← if rExt.2 + rExt.1 * 28 ≤ gsd.length then some (rExt.2 + rExt.1 * 28) else none
  let p24 ←
    if mdxVersion > 800 then
      if p23 + 84 ≤ gsd.length then some (skipTangSkin gsd gsd.length (p23 + 84)) else none
    else some p23
  let rUV ← readArrayTagCount gsd p24 tagUVAS
  let rUVs ← uvasLoop gsd vertexCount rUV.1 rUV.2 0
  some { materialId := rMat.1, uvs0 := rUVs.1 }

/-- `parseGeoset` (MdxLoader.cpp lines 251-536) on the geoset's own byte
slice `gsd`, split into the three sequential sections above (one C++
function; the split only keeps elaboration tractable — the byte protocol,
threaded positions and failure behavior are identical). -/
def parseGeoset (gsd : List ℕ) (mdxVersion : ℕ) : Option GeosetParsed := do
  let g ← parseGeosetGeom gsd
  let s ← parseGeosetSkin gsd g.pos
  let t ← parseGeosetTail gsd mdxVersion g.vertexCount s.pos
  let vertices := applyUVs (applyNormals (mkVerticesFromPositions g.positions) g.normals) t.uvs0
  let triIndices := convertPrims g.faces (g.ftypes.zip g.fcounts) 0
  some { vertices := vertices, triIndices := triIndices, materialId := t.materialId,
         vertexGroups := s.vgroups, groups := s.groups }

/-- Folding one parsed geoset into the model (MdxLoader.cpp lines
1240-1295): bump the geoset counter, drop empty geosets, append vertices,
remap per-vertex group ids by the skin-group offset (as a u16 cast), append
base-offset triangle indices, and record a submesh. -/
def integrateGeoset (model : ModelData) (gs : GeosetParsed) : ModelData :=
  let model1 := { model with geosetCount := model.geosetCount + 1 }
  if gs.vertices.isEmpty ∨ gs.triIndices.isEmpty then model1
  else
    let baseVertex := model1.vertices.length
    let indexOffset := model1.indices.length
    let vertices := model1.vertices ++ gs.vertices
    let withSkin := !gs.vertexGroups.isEmpty
    let groupOffset := model1.skinGroups.length
    let skinGroups := if withSkin then model1.skinGroups ++ gs.groups else model1.skinGroups
    let vgCount := min gs.vertexGroups.length gs.vertices.length
    let vertexGroups :=
      if withSkin then
        model1.vertexGroups ++
          ((gs.vertexGroups.take vgCount).map fun v => (groupOffset + v) % 65536) ++
          List.replicate (gs.vertices.length - vgCount) (groupOffset % 65536)
      else model1.vertexGroups
    let indices := model1.indices ++ gs.triIndices.map fun ix => baseVertex + ix
    { model1 with
        vertices := vertices, indices := indices,
        vertexGroups := vertexGroups, skinGroups := skinGroups,
        subMeshes := model1.subMeshes ++
          [{ indexOffset := indexOffset, indexCount := indices.length - indexOffset,
             materialId := gs.materialId }] }

/-- The GEOS chunk's geoset loop (MdxLoader.cpp lines 1229-1296): read each
inclusive size; a size below 4 ends the chunk, a failing geoset parse fails
the whole load. -/
def geosLoopFuel (cdata : List ℕ) (mdxVersion : ℕ) : ℕ → ℕ → ModelData → Option ModelData
  | 0, _, model => some model
  | fuel + 1, pos, model =>
    if pos + 4 ≤ cdata.length then
      match rdU32 cdata pos with
      | none => some model
      | some (inclusiveSize, _) =>
        if inclusiveSize < 4 then some model
        else
          let dataSize := inclusiveSize - 4
          if pos + 4 + dataSize ≤ cdata.length then
            match parseGeoset ((cdata.drop (pos + 4)).take dataSize) mdxVersion with
            | none => none
            | some gs =>
              geosLoopFuel cdata mdxVersion fuel (pos + 4 + dataSize) (integrateGeoset model gs)
          else none
    else some model

/-- The loop with the fuel it can never exhaust (each iteration advances
`pos` by `inclusiveSize ≥ 4` while `pos + 4 ≤ cdata.length`). -/
def geosLoop (cdata : List ℕ) (mdxVersion : ℕ) (pos : ℕ) (model : ModelData) :
    Option ModelData :=
  geosLoopFuel cdata mdxVersion (cdata.length + 1) pos model

/-- First-seed componentwise minimum over a vertex position list (the C++
folds from `+infinity`, which over a nonempty list is the list minimum; the
empty case is never consulted). -/
def posMin (ps : List V3) : V3 :=
  match ps with
  | [] => V3.zero
  | p :: rest => rest.foldl (fun a b => ⟨min a.x b.x, min a.y b.y, min a.z b.z⟩) p

/-- First-seed componentwise maximum (see `posMin`). -/
def posMax (ps : List V3) : V3 :=
  match ps with
  | [] => V3.zero
  | p :: rest => rest.foldl (fun a b => ⟨max a.x b.x, max a.y b.y, max a.z b.z⟩) p

/-- The post-loop fixups of `LoadFromBytes` (MdxLoader.cpp lines
1340-1437): pivot backfill into nodes, the bind-pose copy, bounds, the
default material, and submesh material-id clamping. -/
def finalizeModel (model : ModelData) : ModelData :=
  let model2 :=
    if !model.pivots.isEmpty then
      let nodes0 :=
        if model.nodes.length < model.pivots.length then
          model.nodes ++ List.replicate (model.pivots.length - model.nodes.length) Node.dflt
        else model.nodes
      let nodes := nodes0.mapIdx fun i nd =>
        if i < model.pivots.length then
          { nd with nodeId := if nd.nodeId < 0 then (i : ℤ) else nd.nodeId,
                    pivot := model.pivots.getD i V3.zero }
        else nd
      { model with nodes := nodes }
    else model
  let model3 := { model2 with bindVertices := model2.vertices }
  let hasMesh := !model3.vertices.isEmpty && !model3.indices.isEmpty
  let hasParticles := !model3.emitters2.isEmpty
  let vpos := model3.vertices.map fun v => (⟨v.px, v.py, v.pz⟩ : V3)
  let core : V3 × V3 :=
    if hasMesh then (posMin vpos, posMax vpos)
    else if !model3.pivots.isEmpty then (posMin model3.pivots, posMax model3.pivots)
    else (⟨-1, -1, -1⟩, ⟨1, 1, 1⟩)
  let bounds : V3 × V3 :=
    if !hasMesh && hasParticles then
      (⟨core.1.x - 64, core.1.y - 64, core.1.z - 64⟩,
       ⟨core.2.x + 64, core.2.y + 64, core.2.z + 64⟩)
    else core
  let model4 := { model3 with boundsMin := bounds.1, boundsMax := bounds.2, hasBounds := true }
  let model5 :=
    if model4.materials.isEmpty then { model4 with materials := [{}] } else model4
  let maxMat := model5.materials.length
  { model5 with subMeshes := model5.subMeshes.map fun sm =>
      if sm.materialId ≥ maxMat then { sm with materialId := 0 } else sm }

/-- The top-level chunk loop of `LoadFromBytes` (MdxLoader.cpp lines
1188-1338).  VERS and GEOS are dispatched as in the source; the source
additionally dispatches MTLS/TEXS/SEQS/GLBS/BONE/HELP/LITE/ATCH/PREM/RIBB/
EVTS/CLID/PIVT/PRE2 to sub-parsers that no claim below exercises and no
buffer below contains, so here they take the same skip-to-next-chunk path
as an unrecognized tag.  A chunk whose declared size exceeds the remaining
bytes breaks the loop without failing the parse. -/
def chunkLoopFuel (d : List ℕ) : ℕ → ℕ → ModelData → Option ModelData
  | 0, _, model => some model
  | fuel + 1, pos, model =>
    if pos + 8 ≤ d.length then
      let tag := [d.getD pos 0, d.getD (pos+1) 0, d.getD (pos+2) 0, d.getD (pos+3) 0]
      let chunkSize := d.getD (pos+4) 0 + d.getD (pos+5) 0 * 256 +
        d.getD (pos+6) 0 * 65536 + d.getD (pos+7) 0 * 16777216
      if pos + 8 + chunkSize ≤ d.length then
        let cdata := (d.drop (pos + 8)).take chunkSize
        let dispatched : Option ModelData :=
          if tag = tagVERS then
            match rdU32 cdata 0 with
            | none => none
            | some (ver, _) => some { model with mdxVersion := ver }
          else if tag = tagGEOS then geosLoop cdata model.mdxVersion 0 model
          else some model
        match dispatched with
        | none => none
        | some model1 => chunkLoopFuel d fuel (pos + 8 + chunkSize) model1
      else some model
    else some model

/-- The loop with the fuel it can never exhaust (each iteration advances
`pos` by `8 + chunkSize ≥ 8` while `pos + 8 ≤ d.length`). -/
def chunkLoop (d : List ℕ) (pos : ℕ) (model : ModelData) : Option ModelData :=
  chunkLoopFuel d (d.length + 1) pos model

/-- `MdxLoader::LoadFromBytes` (MdxLoader.cpp lines 1165-1439): size and
magic checks, the chunk loop, then the post-loop fixups. -/
def LoadFromBytes (bytes : List ℕ) : Option ModelData :=
  if bytes.length < 8 then none
  else if bytes.take 4 ≠ tagMDLX then none
  else
    match chunkLoop bytes 4 {} with
    | none => none
    | some model => some (finalizeModel model)

/-! ## Concrete instances the theorems evaluate -/

/-- A one-key constant vector track (key at time 0). -/
def oneKeyV3 (v : V3) : MdxTrack V3 :=
  ⟨MdxInterp.Linear, -1, [⟨0, v, V3.zero, V3.zero⟩]⟩

/-- A one-key constant quaternion track (key at time 0). -/
def oneKeyV4 (v : V4) : MdxTrack V4 :=
  ⟨MdxInterp.Linear, -1, [⟨0, v, V4.qid, V4.qid⟩]⟩

/-- Two-node document with a parent cycle (node 0's parent is node 1 and
vice versa); node 1 additionally carries a constant translation `(1,0,0)`. -/
def twoNodeCycleDoc : ModelData :=
  { nodes := [{ nodeId := 0, parentId := 1 },
              { nodeId := 1, parentId := 0, trackTranslation := oneKeyV3 ⟨1, 0, 0⟩ }] }

/-- The cycle document's evaluation result. -/
def twoNodeCycleRes : List NodeVals := (buildNodeWorldCached twoNodeCycleDoc 0 []).getD []

/-- One root node flagged `DontInheritTranslation` (bit 0x1) with a
constant translation `(1,0,0)`. -/
def dontInheritTranslationDoc : ModelData :=
  { nodes := [{ nodeId := 0, parentId := -1, flags := 1,
                trackTranslation := oneKeyV3 ⟨1, 0, 0⟩ }] }

/-- First evaluation of `dontInheritTranslationDoc` (empty previous state). -/
def ditRun1 : List NodeVals := (buildNodeWorldCached dontInheritTranslationDoc 0 []).getD []

/-- Second evaluation at the same document and query time, fed the arrays
the first evaluation left behind (exactly the C++ member-array situation). -/
def ditRun2 : List NodeVals := (buildNodeWorldCached dontInheritTranslationDoc 0 ditRun1).getD []

/-- The suppressed-scale scenario: a root node with constant translation
`(3,0,0)`, constant rotation `(0,0,1,0)` (180 degrees about z) and constant
scale `(2,2,2)`, and a child carrying only `DontInheritScaling` (0x2). -/
def suppressScaleDoc : ModelData :=
  { nodes := [{ nodeId := 0, parentId := -1,
                trackTranslation := oneKeyV3 ⟨3, 0, 0⟩,
                trackRotation := oneKeyV4 ⟨0, 0, 1, 0⟩,
                trackScaling := oneKeyV3 ⟨2, 2, 2⟩ },
              { nodeId := 1, parentId := 0, flags := 2 }] }

/-- The suppressed-scale scenario's evaluation result. -/
def suppressScaleRes : List NodeVals := (buildNodeWorldCached suppressScaleDoc 0 []).getD []

/-- A bind vertex at position `(1,2,3)` with normal `(1,0,0)`. -/
def bindVertex123 : ModelVertex := { px := 1, py := 2, pz := 3, nx := 1, nz := 0 }

/-- Document whose single vertex points at a nonempty skin group whose only
bone index (5) resolves to no transform. -/
def allInvalidGroupDoc : ModelData :=
  { bindVertices := [bindVertex123], vertexGroups := [0], skinGroups := [⟨[5]⟩],
    nodes := [{ nodeId := 0 }] }

/-- Emitter whose static emission rate is 2.5 per second (no tracks, head
spawning only). -/
def emitterRate2p5 : Emitter2 := { emissionRate := 5/2 }

/-- Emitter whose static emission rate is 1.25 per second. -/
def emitterRate1p25 : Emitter2 := { emissionRate := 5/4 }

/-- One-key quaternion track whose key value `(0,0,0,2)` is not unit
length (key time 5). -/
def nonUnitQuatTrack : MdxTrack V4 :=
  ⟨MdxInterp.Linear, -1, [⟨5, ⟨0, 0, 0, 2⟩, V4.qid, V4.qid⟩]⟩

/-- 167-byte MDX buffer: magic, then one GEOS chunk holding one geoset with
1 vertex, a triangle-list group whose PVTX indices are `[0, 1, 2]` (1 and 2
exceed the vertex count), and a GNDX vertex-group byte `2` against a single
MTGC matrix group (so the group id exceeds the group count).  Every float
is `0.0`; all sub-block sizes are consistent, so parsing succeeds. -/
def outOfRangeIndexBuf : List ℕ :=
  [77, 68, 76, 88,
   71, 69, 79, 83, 155, 0, 0, 0,
   155, 0, 0, 0,
   86, 82, 84, 88, 1, 0, 0, 0, 0, 0, 0, 0, 0, 0, 0, 0, 0, 0, 0, 0,
   78, 82, 77, 83, 0, 0, 0, 0,
   80, 84, 89, 80, 1, 0, 0, 0, 4, 0, 0, 0,
   80, 67, 78, 84, 1, 0, 0, 0, 3, 0, 0, 0,
   80, 86, 84, 88, 3, 0, 0, 0, 0, 0, 1, 0, 2, 0,
   71, 78, 68, 88, 1, 0, 0, 0, 2,
   77, 84, 71, 67, 1, 0, 0, 0, 1, 0, 0, 0,
   77, 65, 84, 83, 1, 0, 0, 0, 0, 0, 0, 0,
   0, 0, 0, 0, 0, 0, 0, 0, 0, 0, 0, 0,
   0, 0, 0, 0, 0, 0, 0, 0, 0, 0, 0, 0, 0, 0, 0, 0, 0, 0, 0, 0, 0, 0,
   0, 0, 0, 0, 0, 0,
   0, 0, 0, 0,
   85, 86, 65, 83, 0, 0, 0, 0]

/-- The document `outOfRangeIndexBuf` parses to. -/
def outOfRangeParsed : ModelData := (LoadFromBytes outOfRangeIndexBuf).getD {}

/-- 36-byte MDX buffer: magic, a well-formed VERS chunk (version 800), then
a GEOS chunk whose single geoset (inclusive size 12) opens with the bogus
tag `XXXX` where `VRTX` is required — a malformed chunk after a well-formed
one. -/
def malformedGeosetBuf : List ℕ :=
  [77, 68, 76, 88,
   86, 69, 82, 83, 4, 0, 0, 0, 32, 3, 0, 0,
   71, 69, 79, 83, 12, 0, 0, 0,
   12, 0, 0, 0, 88, 88, 88, 88, 0, 0, 0, 0]

/-! # Theorems -/

section

attribute [local semireducible] Rat.add Rat.mul Rat.inv Rat.sub

/-- C1: parsing `outOfRangeIndexBuf` SUCCEEDS, yet the returned document
violates the claimed invariant twice over: triangle indices 1 and 2 are not
below the vertex count 1, and the vertex group id 2 is not below the skin
group count 1.  MdxLoader.cpp asserts exactly these bounds itself
(`Q_ASSERT(idx < gs.vertices.size())`, line 1285, and
`Q_ASSERT(vg < groupSizes.size())`, line 391), so the release-mode code
contradicts its own assertions on this input. -/
theorem c1_successful_parse_with_out_of_range_indices :
    LoadFromBytes outOfRangeIndexBuf = some outOfRangeParsed ∧
    outOfRangeParsed.vertices.length = 1 ∧
    outOfRangeParsed.indices = [0, 1, 2] ∧
    ¬ (∀ ix ∈ outOfRangeParsed.indices, ix < outOfRangeParsed.vertices.length) ∧
    outOfRangeParsed.skinGroups.length = 1 ∧
    outOfRangeParsed.vertexGroups = [2] ∧
    ¬ (∀ g ∈ outOfRangeParsed.vertexGroups, g < outOfRangeParsed.skinGroups.length) := by
  decide

/-- C6 counterexample: `malformedGeosetBuf` holds a well-formed VERS chunk
followed by a GEOS chunk whose geoset is malformed; the parse returns
failure for the whole buffer instead of dropping the malformed chunk and
succeeding with the well-formed data. -/
theorem c6_malformed_chunk_aborts_whole_parse :
    LoadFromBytes malformedGeosetBuf = none := by decide

/-- C2 counterexample: on the two-node parent-cycle document the
evaluation terminates, but node 1's world transform equals its own local
translation `(1,0,0)` — not the identity — because after the cycle guard
forces node 0 to the identity, node 1 (and then node 0) still composes its
sampled local transform on top. -/
theorem c2_cycle_nodes_not_both_identity :
    buildNodeWorldCached twoNodeCycleDoc 0 [] = some twoNodeCycleRes ∧
    (twoNodeCycleRes.getD 1 NodeVals.init).worldMat = translateM ⟨1, 0, 0⟩ ∧
    (twoNodeCycleRes.getD 1 NodeVals.init).worldMat ≠ idM4 ∧
    (twoNodeCycleRes.getD 0 NodeVals.init).worldMat ≠ idM4 := by
  decide

/-- C7 counterexample: evaluating `dontInheritTranslationDoc` twice at the
same query time 0 gives different results — the second run reads the world
location the first run cached (`oldWorldLoc`) and moves the flagged node
from `(1,0,0)` to `(2,0,0)`, so the evaluator is not a pure function of
`(document, time)`. -/
theorem c7_reevaluation_at_same_time_differs :
    buildNodeWorldCached dontInheritTranslationDoc 0 [] = some ditRun1 ∧
    buildNodeWorldCached dontInheritTranslationDoc 0 ditRun1 = some ditRun2 ∧
    (ditRun1.getD 0 NodeVals.init).worldLoc = ⟨1, 0, 0⟩ ∧
    (ditRun2.getD 0 NodeVals.init).worldLoc = ⟨2, 0, 0⟩ ∧
    ditRun2 ≠ ditRun1 := by
  decide

/-- C8 counterexample: with a constant sampled emission rate of 2.5 per
second and 1-second ticks, the code (which doubles the sampled rate at
GLModelView.cpp line 1022) spawns 5 particles every tick — 20 after 4
ticks — not the claimed alternating 2,3,2,3 pattern totalling 10. -/
theorem c8_sampled_rate_2p5_spawns_5_per_tick :
    (emitterSpawnRun emitterRate2p5 [] 0 1 false 4 0).2 = [5, 5, 5, 5] ∧
    (emitterSpawnRun emitterRate2p5 [] 0 1 false 4 0).2 ≠ [2, 3, 2, 3] ∧
    (emitterSpawnRun emitterRate2p5 [] 0 1 false 4 0).2.foldl (fun a b => a + b) 0 = 20 := by
  decide

/-- C8 amended: the accumulator uses twice the sampled rate.  With sampled
rate 1.25 (effective 2.5) per second and 1-second ticks the spawn counts
alternate 2,3,2,3 with exactly 10 particles after 4 ticks and no fractional
emission lost (the accumulator returns to exactly 0), while sampled rate
2.5 (effective 5) spawns 5 per tick. -/
theorem c8_amended_doubled_rate_accumulator :
    (emitterSpawnRun emitterRate1p25 [] 0 1 false 4 0).2 = [2, 3, 2, 3] ∧
    (emitterSpawnRun emitterRate1p25 [] 0 1 false 4 0).2.foldl (fun a b => a + b) 0 = 10 ∧
    (emitterSpawnRun emitterRate1p25 [] 0 1 false 4 0).1 = 0 ∧
    (emitterSpawnRun emitterRate2p5 [] 0 1 false 4 0).2 = [5, 5, 5, 5] := by
  decide

/-- C9 counterexample: the quaternion sampler clamps to the NORMALIZED key
value: a track whose single key (time 5) has the non-unit value `(0,0,0,2)`
samples to `(0,0,0,1)` both at/below and above the key time, not to the
stored key value. -/
theorem c9_quat_clamp_returns_normalized_value :
    sampleTrackQuat nonUnitQuatTrack 0 V4.qid [] = ⟨0, 0, 0, 1⟩ ∧
    sampleTrackQuat nonUnitQuatTrack 9 V4.qid [] = ⟨0, 0, 0, 1⟩ ∧
    ((⟨0, 0, 0, 1⟩ : V4) ≠ ⟨0, 0, 0, 2⟩) := by
  decide

/-- C3 counterexample: the implemented blend differs from the claim's
dedup-and-divide-by-used rule on both counts.  With one valid bone
(translation by `(1,0,0)`) and one out-of-range index the code averages
over the declared count 2 (`x = 1/2`) while the claimed rule averages over
the 1 bone used (`x = 1`); with the duplicated list `[0,0,1]` the code
keeps the duplicate (`x = 2/3`) while the claimed rule drops it
(`x = 1/2`). -/
theorem c3_no_dedup_and_declared_divisor :
    (skinAverage [translateM ⟨1,0,0⟩] {} ⟨[0, 7]⟩).map (fun v => v.px) = some (1/2) ∧
    (skinAverageSpecStated [translateM ⟨1,0,0⟩] {} ⟨[0, 7]⟩).map (fun v => v.px) = some 1 ∧
    (skinAverage [translateM ⟨1,0,0⟩, idM4] {} ⟨[0, 0, 1]⟩).map (fun v => v.px) = some (2/3) ∧
    (skinAverageSpecStated [translateM ⟨1,0,0⟩, idM4] {} ⟨[0, 0, 1]⟩).map (fun v => v.px) = some (1/2) := by
  decide

/-- C4 counterexample: detection disagrees with the spec's wording on a
negative skin index.  With the identity one-bone map and a skin group
containing index `-1`, the code (whose bounds check only compares the
running maximum against the bone count) chooses bone-order interpretation,
while the spec's "every skin-group index is within that bone list's
bounds" is false, demanding raw-node-id interpretation. -/
theorem c4_negative_index_detection_mismatch :
    skinIndicesAreBoneIndices [0] [⟨[-1]⟩] = true ∧
    ¬ specBoneOrderCondition [0] [⟨[-1]⟩] := by
  decide

/-- Matrix-vector application distributes over the matrix product. -/
theorem M4.mul_mulVec4 (A B : M4) (v : V4) :
    (A.mul B).mulVec4 v = A.mulVec4 (B.mulVec4 v) := by
  cases A; cases B; cases v
  simp only [M4.mul, M4.mulVec4, V4.mk.injEq]
  exact ⟨by ring, by ring, by ring, by ring⟩

/-- Translating the negated pivot sends the pivot point to the origin. -/
theorem translateM_neg_pivot (p : V3) :
    (translateM p.neg).mulVec4 ⟨p.x, p.y, p.z, 1⟩ = ⟨0, 0, 0, 1⟩ := by
  cases p
  simp only [translateM, V3.neg, M4.mulVec4, V4.mk.injEq]
  exact ⟨by ring, by ring, by ring, by ring⟩

/-- A scale matrix fixes the homogeneous origin. -/
theorem scaleM_origin (s : V3) :
    (scaleM s).mulVec4 ⟨0, 0, 0, 1⟩ = ⟨0, 0, 0, 1⟩ := by
  cases s
  simp only [scaleM, M4.mulVec4, V4.mk.injEq]
  exact ⟨by ring, by ring, by ring, by ring⟩

/-- A quaternion rotation matrix fixes the homogeneous origin. -/
theorem quatToM4_origin (q : V4) :
    (quatToM4 q).mulVec4 ⟨0, 0, 0, 1⟩ = ⟨0, 0, 0, 1⟩ := by
  cases q
  simp only [quatToM4, M4.mulVec4, V4.mk.injEq]
  exact ⟨by ring, by ring, by ring, by ring⟩

/-- A translation matrix shifts a homogeneous point. -/
theorem translateM_point (t : V3) (a b c : ℚ) :
    (translateM t).mulVec4 ⟨a, b, c, 1⟩ = ⟨a + t.x, b + t.y, c + t.z, 1⟩ := by
  cases t
  simp only [translateM, M4.mulVec4, V4.mk.injEq]
  exact ⟨by ring, by ring, by ring, by ring⟩

/-- The world location `computeNodeVals` produces is the parent matrix
applied to the translated pivot: the node's own rotation and scale factors
drop out at the pivot point. -/
theorem computeNodeVals_worldLoc (pv : NodeVals) (oldLoc : V3) (nd : Node) (t : ℕ)
    (g : List ℕ) :
    (computeNodeVals pv oldLoc nd t g).worldLoc =
      (let loc := if nd.flags &&& 1 ≠ 0 then
          (pv.invWorldLoc.add oldLoc).add (sampleTrackVec3 nd.trackTranslation t V3.zero g)
        else sampleTrackVec3 nd.trackTranslation t V3.zero g
       let w := pv.worldMat.mulVec4 ⟨nd.pivot.x + loc.x, nd.pivot.y + loc.y, nd.pivot.z + loc.z, 1⟩
       (⟨w.x, w.y, w.z⟩ : V3)) := by
  simp only [computeNodeVals, M4.mul_mulVec4, translateM_point, V3.neg, add_neg_cancel,
    scaleM_origin, quatToM4_origin, zero_add]

/-- The world scale `computeNodeVals` produces. -/
theorem computeNodeVals_worldScale (pv : NodeVals) (oldLoc : V3) (nd : Node) (t : ℕ)
    (g : List ℕ) :
    (computeNodeVals pv oldLoc nd t g).worldScale =
      pv.worldScale.cmul
        (if nd.flags &&& 2 ≠ 0 then
          pv.invWorldScale.cmul (sampleTrackVec3 nd.trackScaling t V3.one g)
        else sampleTrackVec3 nd.trackScaling t V3.one g) := rfl

/-- The world rotation `computeNodeVals` produces. -/
theorem computeNodeVals_worldRot (pv : NodeVals) (oldLoc : V3) (nd : Node) (t : ℕ)
    (g : List ℕ) :
    (computeNodeVals pv oldLoc nd t g).worldRot =
      qnormalizeQt (qmul pv.worldRot
        (if nd.flags &&& 4 ≠ 0 then
          qmul pv.invWorldRot (qnormalizeQt (sampleTrackQuat nd.trackRotation t ⟨0, 0, 0, 1⟩ g))
        else qnormalizeQt (sampleTrackQuat nd.trackRotation t ⟨0, 0, 0, 1⟩ g))) := rfl

/-- C10: a child node carrying only the DontInheritScaling flag (0x2),
whose parent world scale is `(2,2,2)` (inverse `(1/2,1/2,1/2)`) and whose
own sampled local scale is `(1,1,1)`, evaluates to world scale `(1,1,1)` —
not `(2,2,2)` — while its world location and world rotation are exactly
those of the same node with no suppression flags (translation and rotation
inherit normally). -/
theorem c10_suppressed_scale_keeps_unit_scale (pv : NodeVals) (oldLoc : V3) (nd : Node)
    (t : ℕ) (g : List ℕ)
    (hfl : nd.flags = 2)
    (hs : sampleTrackVec3 nd.trackScaling t V3.one g = V3.one)
    (hps : pv.worldScale = ⟨2, 2, 2⟩)
    (hpi : pv.invWorldScale = ⟨1/2, 1/2, 1/2⟩) :
    (computeNodeVals pv oldLoc nd t g).worldScale = V3.one ∧
    (computeNodeVals pv oldLoc nd t g).worldScale ≠ ⟨2, 2, 2⟩ ∧
    (computeNodeVals pv oldLoc nd t g).worldLoc =
      (computeNodeVals pv oldLoc { nd with flags := 0 } t g).worldLoc ∧
    (computeNodeVals pv oldLoc nd t g).worldRot =
      (computeNodeVals pv oldLoc { nd with flags := 0 } t g).worldRot := by
  have hws : (computeNodeVals pv oldLoc nd t g).worldScale = V3.one := by
    rw [computeNodeVals_worldScale, hfl, hs, hps, hpi,
      if_pos (by decide : ((2:ℕ) &&& 2 ≠ 0))]
    simp only [V3.cmul, V3.one, V3.mk.injEq]
    norm_num
  refine ⟨hws, by rw [hws]; decide, ?_, ?_⟩
  · rw [computeNodeVals_worldLoc, computeNodeVals_worldLoc]
    simp [hfl]
  · rw [computeNodeVals_worldRot, computeNodeVals_worldRot]
    have h4 : (2:ℕ) &&& 4 = 0 := by decide
    simp [hfl, h4]

/-- Concrete instantiation of `c10_suppressed_scale_keeps_unit_scale`:
parent values with world scale `(2,2,2)`, a child with flags `0x2` and no
scale track, query time 0. -/
theorem c10_suppressed_scale_witness :
    (computeNodeVals
        { worldScale := ⟨2, 2, 2⟩, invWorldScale := ⟨1/2, 1/2, 1/2⟩ }
        V3.zero { flags := 2 } 0 []).worldScale = V3.one ∧
    (computeNodeVals
        { worldScale := ⟨2, 2, 2⟩, invWorldScale := ⟨1/2, 1/2, 1/2⟩ }
        V3.zero { flags := 2 } 0 []).worldScale ≠ ⟨2, 2, 2⟩ := by
  have h := c10_suppressed_scale_keeps_unit_scale
    { worldScale := ⟨2, 2, 2⟩, invWorldScale := ⟨1/2, 1/2, 1/2⟩ }
    V3.zero { flags := 2 } 0 [] rfl (by decide) rfl rfl
  exact ⟨h.1, h.2.1⟩

/-- C5 counterexample: a vertex whose nonempty skin group consists only of
the unusable index 5 is NOT left at its bind pose `(1,2,3)`: the blend sums
nothing, divides by the declared count, and writes position `(0,0,0)` with
the fallback normal `(0,0,1)`. -/
theorem c5_all_skipped_group_zeroes_vertex :
    skinVertexAt [idM4] allInvalidGroupDoc 0 ≠ bindVertex123 ∧
    skinVertexAt [idM4] allInvalidGroupDoc 0 =
      { bindVertex123 with px := 0, py := 0, pz := 0, nx := 0, ny := 0, nz := 1 } := by
  decide

/-- Folding a step that skips elements failing a decidable test equals
folding the unconditional step over the filtered list. -/
theorem foldl_skip_eq_foldl_filter {α β : Type} (p : α → Prop) [DecidablePred p]
    (f : β → α → β) :
    ∀ (l : List α) (acc : β),
      l.foldl (fun acc x => if p x then f acc x else acc) acc =
        (l.filter fun x => decide (p x)).foldl f acc := by
  intro l
  induction l with
  | nil => intro acc; rfl
  | cons x xs ih =>
    intro acc
    by_cases hx : p x
    · simp [List.filter_cons, hx, ih]
    · simp [List.filter_cons, hx, ih]

/-- C3 amended: the implemented blend equals the declared-count average —
take the first `min(size, maxBones)` declared entries with
`maxBones = 8` when the group declares more than 4 indices and `4`
otherwise, drop only the out-of-range entries (duplicates are kept),
sum the transformed position and normal over what remains, and divide the
position sum by the declared `min(size, maxBones)` (not by the number of
entries actually used); the summed normal is normalized with the `(0,0,1)`
fallback. -/
theorem c3_amended_blend_is_declared_average (skinMats : List M4) (base : ModelVertex)
    (group : SkinGroup) :
    skinAverage skinMats base group = skinAverageDeclaredAvg skinMats base group := by
  simp only [skinAverage, skinAverageDeclaredAvg]
  rw [foldl_skip_eq_foldl_filter (fun ix : ℤ => 0 ≤ ix ∧ ix.toNat < skinMats.length)]

/-- A fold whose step skips every element of the list leaves the
accumulator unchanged. -/
theorem foldl_skip_all {α β : Type} (p : α → Prop) [DecidablePred p] (f : β → α → β)
    (l : List α) (acc : β) (h : ∀ x ∈ l, ¬ p x) :
    l.foldl (fun acc x => if p x then f acc x else acc) acc = acc := by
  induction l generalizing acc with
  | nil => rfl
  | cons x xs ih =>
    have hx : ¬ p x := h x (List.mem_cons_self x xs)
    simp only [List.foldl_cons, if_neg hx]
    exact ih acc fun y hy => h y (List.mem_cons_of_mem x hy)

/-- A nonempty list's `isEmpty` is not `true`. -/
theorem not_isEmpty_of_ne {α : Type} {l : List α} (h : l ≠ []) : ¬ (l.isEmpty = true) := by
  cases l with
  | nil => exact absurd rfl h
  | cons a as => simp

/-- Definitional unfolding of `skinVertexAt`. -/
theorem skinVertexAt_eq (skinMats : List M4) (model : ModelData) (i : ℕ) :
    skinVertexAt skinMats model i =
      (if i ≥ model.vertexGroups.length then model.bindVertices.getD i ModelVertex.dflt
       else if model.vertexGroups.getD i 0 ≥ model.skinGroups.length then
         model.bindVertices.getD i ModelVertex.dflt
       else if (model.skinGroups.getD (model.vertexGroups.getD i 0) ⟨[]⟩).nodeIndices.isEmpty then
         model.bindVertices.getD i ModelVertex.dflt
       else
         match skinAverage skinMats (model.bindVertices.getD i ModelVertex.dflt)
             (model.skinGroups.getD (model.vertexGroups.getD i 0) ⟨[]⟩) with
         | some v => v
         | none => model.bindVertices.getD i ModelVertex.dflt) := rfl

/-- `skinAverage` declines on an empty matrix table. -/
theorem skinAverage_nil (base : ModelVertex) (group : SkinGroup) :
    skinAverage [] base group = none := rfl

/-- `skinAverage` on a nonempty group whose every index is unusable: the
empty sums are averaged, producing the origin and the fallback normal. -/
theorem skinAverage_all_invalid (skinMats : List M4) (base : ModelVertex)
    (group : SkinGroup) (hm : skinMats ≠ []) (hne : group.nodeIndices ≠ [])
    (hinv : ∀ ix ∈ group.nodeIndices, ¬ (0 ≤ ix ∧ ix.toNat < skinMats.length)) :
    skinAverage skinMats base group =
      some { base with px := 0, py := 0, pz := 0, nx := 0, ny := 0, nz := 1 } := by
  have hlen : 0 < group.nodeIndices.length := List.length_pos.mpr hne
  have hbn : ¬ (min group.nodeIndices.length
      (if group.nodeIndices.length > 4 then 8 else 4) = 0) := by
    by_cases h4 : group.nodeIndices.length > 4
    · rw [if_pos h4]; omega
    · rw [if_neg h4]; omega
  simp only [skinAverage]
  rw [if_neg (not_isEmpty_of_ne hm), if_neg hbn]
  rw [foldl_skip_all (fun ix : ℤ => 0 ≤ ix ∧ ix.toNat < skinMats.length) _ _ _
    (fun x hx => hinv x (List.take_subset _ _ hx))]
  norm_num

/-- C5 amended: the bind pose survives exactly in the early-out cases — the
vertex has no group slot, the group id is out of range, the group is empty,
or the matrix table is empty — while a NONEMPTY group whose every index is
unusable does NOT keep the bind pose: the empty sum is divided by the
declared count, giving position `(0,0,0)` and the fallback normal
`(0,0,1)`. -/
theorem c5_amended_passthrough_or_origin (skinMats : List M4) (model : ModelData) (i : ℕ) :
    ((model.vertexGroups.length ≤ i ∨
      model.skinGroups.length ≤ model.vertexGroups.getD i 0 ∨
      (model.skinGroups.getD (model.vertexGroups.getD i 0) ⟨[]⟩).nodeIndices = [] ∨
      skinMats = []) →
      skinVertexAt skinMats model i = model.bindVertices.getD i ModelVertex.dflt) ∧
    ((model.skinGroups.getD (model.vertexGroups.getD i 0) ⟨[]⟩).nodeIndices ≠ [] →
      (∀ ix ∈ (model.skinGroups.getD (model.vertexGroups.getD i 0) ⟨[]⟩).nodeIndices,
        ¬ (0 ≤ ix ∧ ix.toNat < skinMats.length)) →
      i < model.vertexGroups.length →
      model.vertexGroups.getD i 0 < model.skinGroups.length →
      skinMats ≠ [] →
      (skinVertexAt skinMats model i).px = 0 ∧
      (skinVertexAt skinMats model i).py = 0 ∧
      (skinVertexAt skinMats model i).pz = 0 ∧
      (skinVertexAt skinMats model i).nx = 0 ∧
      (skinVertexAt skinMats model i).ny = 0 ∧
      (skinVertexAt skinMats model i).nz = 1) := by
  constructor
  · intro h
    rw [skinVertexAt_eq]
    by_cases h1 : i ≥ model.vertexGroups.length
    · rw [if_pos h1]
    · rw [if_neg h1]
      by_cases h2 : model.vertexGroups.getD i 0 ≥ model.skinGroups.length
      · rw [if_pos h2]
      · rw [if_neg h2]
        by_cases h3 : (model.skinGroups.getD (model.vertexGroups.getD i 0)
            ⟨[]⟩).nodeIndices.isEmpty = true
        · rw [if_pos h3]
        · rw [if_neg h3]
          have hmE : skinMats = [] := by
            rcases h with h | h | h | h
            · omega
            · omega
            · have : (model.skinGroups.getD (model.vertexGroups.getD i 0)
                  ⟨[]⟩).nodeIndices.isEmpty = true := by rw [h]; rfl
              exact absurd this h3
            · exact h
          rw [hmE, skinAverage_nil]
  · intro hne hinv hi hg hm
    have hstep : skinVertexAt skinMats model i =
        { model.bindVertices.getD i ModelVertex.dflt with
            px := 0, py := 0, pz := 0, nx := 0, ny := 0, nz := 1 } := by
      rw [skinVertexAt_eq,
          if_neg (by omega : ¬ (i ≥ model.vertexGroups.length)),
          if_neg (by omega : ¬ (model.vertexGroups.getD i 0 ≥ model.skinGroups.length)),
          if_neg (not_isEmpty_of_ne hne),
          skinAverage_all_invalid skinMats _ _ hm hne hinv]
    rw [hstep]
    exact ⟨rfl, rfl, rfl, rfl, rfl, rfl⟩

/-- Concrete instantiation of `c5_amended_passthrough_or_origin` on
`allInvalidGroupDoc`: the all-invalid group zeroes the vertex. -/
theorem c5_amended_witness :
    (skinVertexAt [idM4] allInvalidGroupDoc 0).px = 0 ∧
    (skinVertexAt [idM4] allInvalidGroupDoc 0).py = 0 ∧
    (skinVertexAt [idM4] allInvalidGroupDoc 0).pz = 0 ∧
    (skinVertexAt [idM4] allInvalidGroupDoc 0).nx = 0 ∧
    (skinVertexAt [idM4] allInvalidGroupDoc 0).ny = 0 ∧
    (skinVertexAt [idM4] allInvalidGroupDoc 0).nz = 1 :=
  (c5_amended_passthrough_or_origin [idM4] allInvalidGroupDoc 0).2
    (by decide) (by decide) (by decide) (by decide) (by decide)

/-- The running-maximum fold is below `k` iff the seed and every element
are. -/
theorem foldl_imax_lt (k : ℤ) :
    ∀ (l : List ℤ) (m : ℤ),
      l.foldl (fun m ix => if ix > m then ix else m) m < k ↔ m < k ∧ ∀ x ∈ l, x < k := by
  intro l
  induction l with
  | nil => intro m; simp
  | cons x xs ih =>
    intro m
    rw [List.foldl_cons, ih]
    by_cases hx : x > m
    · rw [if_pos hx]
      constructor
      · rintro ⟨h1, h2⟩
        refine ⟨by omega, ?_⟩
        intro y hy
        rcases List.mem_cons.mp hy with rfl | h
        · omega
        · exact h2 y h
      · rintro ⟨h1, h2⟩
        exact ⟨h2 x (List.mem_cons_self x xs), fun y hy => h2 y (List.mem_cons_of_mem x hy)⟩
    · rw [if_neg hx]
      constructor
      · rintro ⟨h1, h2⟩
        refine ⟨h1, ?_⟩
        intro y hy
        rcases List.mem_cons.mp hy with rfl | h
        · omega
        · exact h2 y h
      · rintro ⟨h1, h2⟩
        exact ⟨h1, fun y hy => h2 y (List.mem_cons_of_mem x hy)⟩

/-- `skinMaxIdx` is below `k > -1` iff every skin-group index is. -/
theorem skinMaxIdx_lt (k : ℤ) (hk : (-1 : ℤ) < k) (groups : List SkinGroup) :
    skinMaxIdx groups < k ↔ ∀ g ∈ groups, ∀ ix ∈ g.nodeIndices, ix < k := by
  unfold skinMaxIdx
  suffices h : ∀ (gs : List SkinGroup) (m : ℤ),
      gs.foldl (fun m g => g.nodeIndices.foldl (fun m ix => if ix > m then ix else m) m) m < k ↔
        m < k ∧ ∀ g ∈ gs, ∀ ix ∈ g.nodeIndices, ix < k by
    rw [h groups (-1)]
    exact ⟨fun hh => hh.2, fun hh => ⟨hk, hh⟩⟩
  intro gs
  induction gs with
  | nil => intro m; simp
  | cons g rest ih =>
    intro m
    rw [List.foldl_cons, ih, foldl_imax_lt]
    constructor
    · rintro ⟨⟨h1, h2⟩, h3⟩
      refine ⟨h1, ?_⟩
      intro g2 hg2
      rcases List.mem_cons.mp hg2 with rfl | h
      · exact h2
      · exact h3 g2 h
    · rintro ⟨h1, h2⟩
      exact ⟨⟨h1, h2 g (List.mem_cons_self g rest)⟩,
        fun g2 hg2 => h2 g2 (List.mem_cons_of_mem g hg2)⟩

/-- A list whose `isEmpty` is `false` is not nil. -/
theorem ne_nil_of_isEmpty_false {α : Type} {l : List α} (h : l.isEmpty = false) : l ≠ [] := by
  cases l with
  | nil => simp at h
  | cons a as => exact List.cons_ne_nil a as

/-- C4 amended: the implemented index-space detection chooses the
bone-declaration-order interpretation iff the bone table is nonempty, the
bone-order-to-node-id map is the identity, and every skin-group index is
(signed) BELOW the bone count — negative indices are not excluded, and an
empty bone table always forces the raw-node-id interpretation.  The
detection is a function of the document's bone table and skin groups alone,
computed once per skinning pass, not per vertex. -/
theorem c4_amended_detection_characterization (bids : List ℤ) (groups : List SkinGroup) :
    skinIndicesAreBoneIndices bids groups = true ↔
      bids ≠ [] ∧ (∀ i < bids.length, bids.getD i 0 = (i : ℤ)) ∧
        ∀ g ∈ groups, ∀ ix ∈ g.nodeIndices, ix < (bids.length : ℤ) := by
  unfold skinIndicesAreBoneIndices boneMapIsIdentity
  dsimp only
  split_ifs with hs
  · simp only [Bool.and_eq_true, Bool.not_eq_true', List.all_eq_true,
      decide_eq_true_eq, List.mem_range] at hs
    have hne : bids ≠ [] := ne_nil_of_isEmpty_false hs.1.1
    have hid : ∀ i < bids.length, bids.getD i 0 = (i : ℤ) := fun i hi => hs.1.2 i hi
    have hlen : 0 < bids.length := List.length_pos.mpr hne
    rw [Bool.not_eq_true', decide_eq_false_iff_not, not_le,
      skinMaxIdx_lt (bids.length : ℤ) (by omega) groups]
    exact ⟨fun hlt => ⟨hne, hid, hlt⟩, fun hh => hh.2.2⟩
  · constructor
    · intro hfalse
      exact absurd hfalse (by simp)
    · rintro ⟨hne, hid, hlt⟩
      exfalso
      apply hs
      have hiE : bids.isEmpty = false := by
        cases bids with
        | nil => exact absurd rfl hne
        | cons a as => rfl
      simp only [Bool.and_eq_true, Bool.not_eq_true', List.all_eq_true,
        decide_eq_true_eq, List.mem_range]
      refine ⟨⟨?_, fun i hi => hid i hi⟩, ?_⟩ <;> simp [hiE]

/-- C9 amended: clamping holds in every interpolation mode, but for
quaternion tracks the clamped result is the *normalized* key value while the
float sampler returns the stored key value exactly (no active global
sequence is assumed only through the remapped time; the hypotheses phrase
the clamp tests on the remapped query time). -/
theorem c9_amended_clamp_with_quat_normalization
    (trF : MdxTrack ℚ) (trQ : MdxTrack V4) (tLo tHi : ℕ) (dF : ℚ) (dQ : V4)
    (gseqs : List ℕ)
    (kF : MdxTrackKey ℚ) (restF : List (MdxTrackKey ℚ))
    (kQ : MdxTrackKey V4) (restQ : List (MdxTrackKey V4))
    (hkF : trF.keys = kF :: restF) (hkQ : trQ.keys = kQ :: restQ)
    (hloF : remapTrackTime trF.globalSeqId gseqs tLo ≤ kF.timeMs)
    (hloQ : remapTrackTime trQ.globalSeqId gseqs tLo ≤ kQ.timeMs)
    (hniF : ¬ remapTrackTime trF.globalSeqId gseqs tHi ≤ kF.timeMs)
    (hniQ : ¬ remapTrackTime trQ.globalSeqId gseqs tHi ≤ kQ.timeMs)
    (hhiF : remapTrackTime trF.globalSeqId gseqs tHi ≥ (restF.getLastD kF).timeMs)
    (hhiQ : remapTrackTime trQ.globalSeqId gseqs tHi ≥ (restQ.getLastD kQ).timeMs) :
    sampleTrackFloat trF tLo dF gseqs = kF.value ∧
    sampleTrackFloat trF tHi dF gseqs = (restF.getLastD kF).value ∧
    sampleTrackQuat trQ tLo dQ gseqs = normalizeQuat kQ.value ∧
    sampleTrackQuat trQ tHi dQ gseqs = normalizeQuat (restQ.getLastD kQ).value := by
  obtain ⟨iF, gF, keysF⟩ := trF
  obtain ⟨iQ, gQ, keysQ⟩ := trQ
  dsimp only at hkF hkQ hloF hloQ hniF hniQ hhiF hhiQ
  subst hkF
  subst hkQ
  refine ⟨?_, ?_, ?_, ?_⟩
  · simp only [sampleTrackFloat]
    rw [if_pos hloF]
  · simp only [sampleTrackFloat, List.getLast_eq_getLastD]
    rw [if_neg hniF, if_pos hhiF]
  · simp only [sampleTrackQuat]
    rw [if_pos hloQ]
  · simp only [sampleTrackQuat, List.getLast_eq_getLastD]
    rw [if_neg hniQ, if_pos hhiQ]

theorem c9_amended_clamp_witness :
    sampleTrackFloat ⟨MdxInterp.Linear, -1, [⟨5, 3, 0, 0⟩]⟩ 0 0 [] = 3 ∧
    sampleTrackFloat ⟨MdxInterp.Linear, -1, [⟨5, 3, 0, 0⟩]⟩ 9 0 [] = 3 ∧
    sampleTrackQuat nonUnitQuatTrack 0 V4.qid [] = normalizeQuat ⟨0, 0, 0, 2⟩ ∧
    sampleTrackQuat nonUnitQuatTrack 9 V4.qid [] = normalizeQuat ⟨0, 0, 0, 2⟩ :=
  c9_amended_clamp_with_quat_normalization
    ⟨MdxInterp.Linear, -1, [⟨5, 3, 0, 0⟩]⟩ nonUnitQuatTrack 0 9 0 V4.qid []
    ⟨5, 3, 0, 0⟩ [] ⟨5, ⟨0, 0, 0, 2⟩, V4.qid, V4.qid⟩ [] rfl rfl
    (by decide) (by decide) (by decide) (by decide) (by decide) (by decide)

/-- C2 amended: on a two-node parent cycle the evaluation terminates, but
the nodes do not both receive the identity world transform.  The node
reached while its requester is still in progress (here node 0) is forced to
identity only transiently: node 1 is then evaluated against those identity
parent values, and node 0 is finally overwritten with its own transform
composed with node 1's world values.  (`buildNodeWorldCached` reads only
`nodes` and `globalSequencesMs` from the model, so fixing the other fields
to their defaults loses no generality; `prev = []` is the first-evaluation
state.) -/
theorem c2_amended_cycle_terminates_with_composed_transforms
    (A B : Node) (t : ℕ) (gseqs : List ℕ)
    (hA : A.parentId = 1) (hB : B.parentId = 0) :
    buildNodeWorldCached { nodes := [A, B], globalSequencesMs := gseqs } t [] =
      some [computeNodeVals (computeNodeVals NodeVals.init V3.zero B t gseqs)
              V3.zero A t gseqs,
            computeNodeVals NodeVals.init V3.zero B t gseqs] := by
  obtain ⟨nidA, pidA, flA, pvA, ttA, trA, tsA⟩ := A
  obtain ⟨nidB, pidB, flB, pvB, ttB, trB, tsB⟩ := B
  dsimp only at hA hB
  subst hA
  subst hB
  rfl

theorem c2_amended_cycle_witness :
    buildNodeWorldCached
        { nodes := [{ nodeId := 0, parentId := 1 },
                    { nodeId := 1, parentId := 0,
                      trackTranslation := oneKeyV3 ⟨1, 0, 0⟩ }],
          globalSequencesMs := [] } 0 [] =
      some [computeNodeVals
              (computeNodeVals NodeVals.init V3.zero
                { nodeId := 1, parentId := 0,
                  trackTranslation := oneKeyV3 ⟨1, 0, 0⟩ } 0 [])
              V3.zero { nodeId := 0, parentId := 1 } 0 [],
            computeNodeVals NodeVals.init V3.zero
              { nodeId := 1, parentId := 0,
                trackTranslation := oneKeyV3 ⟨1, 0, 0⟩ } 0 []] :=
  c2_amended_cycle_terminates_with_composed_transforms _ _ 0 [] rfl rfl

/-- One chunk-loop iteration over a well-formed VERS chunk: the loop
records the version and continues past the chunk. -/
theorem chunkLoopFuel_vers_step (d : List ℕ) (fuel pos : ℕ) (model : ModelData)
    (cs ver : ℕ)
    (h1 : pos + 8 ≤ d.length)
    (htag : [d.getD pos 0, d.getD (pos+1) 0, d.getD (pos+2) 0, d.getD (pos+3) 0] = tagVERS)
    (hcs : d.getD (pos+4) 0 + d.getD (pos+5) 0 * 256 + d.getD (pos+6) 0 * 65536 +
      d.getD (pos+7) 0 * 16777216 = cs)
    (h2 : pos + 8 + cs ≤ d.length)
    (hv : rdU32 ((d.drop (pos + 8)).take cs) 0 = some (ver, 4)) :
    chunkLoopFuel d (fuel + 1) pos model =
      chunkLoopFuel d fuel (pos + 8 + cs) { model with mdxVersion := ver } := by
  simp only [chunkLoopFuel]
  rw [if_pos h1, hcs, if_pos h2, htag, if_pos rfl, hv]

/-- One chunk-loop iteration over a GEOS chunk whose geoset loop fails:
the whole chunk loop returns `none` whatever bytes follow. -/
theorem chunkLoopFuel_geos_abort (d : List ℕ) (fuel pos : ℕ) (model : ModelData)
    (cs : ℕ)
    (h1 : pos + 8 ≤ d.length)
    (htag : [d.getD pos 0, d.getD (pos+1) 0, d.getD (pos+2) 0, d.getD (pos+3) 0] = tagGEOS)
    (hcs : d.getD (pos+4) 0 + d.getD (pos+5) 0 * 256 + d.getD (pos+6) 0 * 65536 +
      d.getD (pos+7) 0 * 16777216 = cs)
    (h2 : pos + 8 + cs ≤ d.length)
    (hg : geosLoop ((d.drop (pos + 8)).take cs) model.mdxVersion 0 model = none) :
    chunkLoopFuel d (fuel + 1) pos model = none := by
  simp only [chunkLoopFuel]
  rw [if_pos h1, hcs, if_pos h2, htag,
    if_neg (by decide : ¬ (tagGEOS = tagVERS)), if_pos rfl, hg]

/-- C6 amended: a malformed GEOS chunk aborts the WHOLE parse; it is not
dropped at chunk granularity.  Whatever bytes follow the malformed chunk
(any suffix `rest`, e.g. further well-formed chunks), `LoadFromBytes`
returns `none` and nothing is loaded; even the well-formed VERS chunk that
precedes the malformed geoset inside `malformedGeosetBuf` is discarded. -/
theorem c6_amended_malformed_chunk_aborts_regardless_of_suffix (rest : List ℕ) :
    LoadFromBytes (malformedGeosetBuf ++ rest) = none := by
  have h36 : malformedGeosetBuf.length = 36 := by decide
  have hlen : (malformedGeosetBuf ++ rest).length = 36 + rest.length := by
    rw [List.length_append, h36]
  have hgd : ∀ n : ℕ, n < 36 → (malformedGeosetBuf ++ rest).getD n 0 =
      malformedGeosetBuf.getD n 0 := fun n hn =>
    List.getD_append _ _ _ _ (by omega)
  have hdt : ∀ n m : ℕ, n + m ≤ 36 →
      ((malformedGeosetBuf ++ rest).drop n).take m =
        (malformedGeosetBuf.drop n).take m := by
    intro n m h
    rw [List.drop_append_of_le_length (by omega),
        List.take_append_of_le_length (by rw [List.length_drop]; omega)]
  have hloop : chunkLoop (malformedGeosetBuf ++ rest) 4 {} = none := by
    unfold chunkLoop
    obtain ⟨k, hk⟩ : ∃ k, (malformedGeosetBuf ++ rest).length + 1 = k + 1 + 1 :=
      ⟨35 + rest.length, by omega⟩
    rw [hk]
    rw [chunkLoopFuel_vers_step (malformedGeosetBuf ++ rest) (k + 1) 4 {} 4 800
      (by omega)
      (by rw [hgd 4 (by omega), hgd (4+1) (by omega), hgd (4+2) (by omega),
              hgd (4+3) (by omega)]; decide)
      (by rw [hgd (4+4) (by omega), hgd (4+5) (by omega), hgd (4+6) (by omega),
              hgd (4+7) (by omega)]; decide)
      (by omega)
      (by rw [hdt (4 + 8) 4 (by omega)]; decide)]
    exact chunkLoopFuel_geos_abort (malformedGeosetBuf ++ rest) k (4 + 8 + 4)
      { mdxVersion := 800 } 12
      (by omega)
      (by rw [hgd (4 + 8 + 4) (by omega), hgd (4 + 8 + 4 + 1) (by omega),
              hgd (4 + 8 + 4 + 2) (by omega), hgd (4 + 8 + 4 + 3) (by omega)]; decide)
      (by rw [hgd (4 + 8 + 4 + 4) (by omega), hgd (4 + 8 + 4 + 5) (by omega),
              hgd (4 + 8 + 4 + 6) (by omega), hgd (4 + 8 + 4 + 7) (by omega)]; decide)
      (by omega)
      (by rw [hdt (4 + 8 + 4 + 8) 12 (by omega)]; decide)
  unfold LoadFromBytes
  have ht : (malformedGeosetBuf ++ rest).take 4 = tagMDLX := by
    rw [List.take_append_of_le_length (by omega)]
    decide
  rw [if_neg (by omega : ¬ (malformedGeosetBuf ++ rest).length < 8),
    if_neg (fun h => h ht), hloop]

/-- `List.set` then `getD` at the written index (in bounds). -/
theorem getD_set_self {α : Type} (l : List α) (i : ℕ) (x d : α) (h : i < l.length) :
    (l.set i x).getD i d = x := by
  rw [List.getD_eq_getElem?_getD, List.getElem?_set_self h]
  rfl

/-- `List.set` then `getD` at a different index. -/
theorem getD_set_ne {α : Type} (l : List α) (i j : ℕ) (x d : α) (h : i ≠ j) :
    (l.set i x).getD j d = l.getD j d := by
  rw [List.getD_eq_getElem?_getD, List.getElem?_set_ne h, ← List.getD_eq_getElem?_getD]

/-- `getD` on a replicated list with the replicated element as default. -/
theorem getD_replicate_self {α : Type} (n i : ℕ) (a : α) :
    (List.replicate n a).getD i a = a := by
  rw [List.getD_eq_getElem?_getD, List.getElem?_replicate]
  split <;> rfl

/-- Without the DontInheritTranslation flag, `computeNodeVals` ignores the
stale `oldWorldLoc` read. -/
theorem computeNodeVals_oldLoc_irrelevant (pv : NodeVals) (o1 o2 : V3) (nd : Node)
    (t : ℕ) (g : List ℕ) (hfl : nd.flags &&& 1 = 0) :
    computeNodeVals pv o1 nd t g = computeNodeVals pv o2 nd t g := by
  simp only [computeNodeVals]
  rw [if_neg (show ¬ (nd.flags &&& 1 ≠ 0) from fun hc => hc hfl),
    if_neg (show ¬ (nd.flags &&& 1 ≠ 0) from fun hc => hc hfl)]

/-- Two `buildNode` runs from states that share the visit vector and agree
on every already-done entry stay in lockstep when no node carries the
DontInheritTranslation flag: they fail together or succeed with the same
visit vector, entries that agree wherever the visit vector says done, and
the queried index done on success. -/
theorem buildNode_state_congr (model : ModelData) (t : ℕ)
    (hf : ∀ nd ∈ model.nodes, nd.flags &&& 1 = 0) :
    ∀ (fuel idx : ℕ) (vals vals' : List NodeVals) (visit : List ℕ),
      vals.length = model.nodes.length →
      vals'.length = model.nodes.length →
      visit.length = model.nodes.length →
      (∀ i, visit.getD i 0 = 2 → vals.getD i NodeVals.init = vals'.getD i NodeVals.init) →
      (buildNode model t fuel (vals, visit) idx = none ∧
       buildNode model t fuel (vals', visit) idx = none) ∨
      (∃ vals1 vals1' visit2,
        buildNode model t fuel (vals, visit) idx = some (vals1, visit2) ∧
        buildNode model t fuel (vals', visit) idx = some (vals1', visit2) ∧
        vals1.length = model.nodes.length ∧
        vals1'.length = model.nodes.length ∧
        visit2.length = model.nodes.length ∧
        (∀ i, visit2.getD i 0 = 2 →
          vals1.getD i NodeVals.init = vals1'.getD i NodeVals.init) ∧
        (∀ i, visit.getD i 0 = 2 → visit2.getD i 0 = 2) ∧
        (idx < model.nodes.length → visit2.getD idx 0 = 2)) := by
  intro fuel
  induction fuel with
  | zero =>
    intro idx vals vals' visit _ _ _ _
    exact Or.inl ⟨rfl, rfl⟩
  | succ fuel ih =>
    intro idx vals vals' visit hlv hlv' hlvis hag
    by_cases hidx : idx ≥ model.nodes.length
    · refine Or.inr ⟨vals, vals', visit, ?_, ?_, hlv, hlv', hlvis, hag, fun i h => h,
        fun hlt => absurd hlt (by omega)⟩
      · simp only [buildNode]
        rw [if_pos hidx]
      · simp only [buildNode]
        rw [if_pos hidx]
    · by_cases h2 : visit.getD idx 0 = 2
      · refine Or.inr ⟨vals, vals', visit, ?_, ?_, hlv, hlv', hlvis, hag, fun i h => h,
          fun _ => h2⟩
        · simp only [buildNode]
          rw [if_neg hidx, if_pos h2]
        · simp only [buildNode]
          rw [if_neg hidx, if_pos h2]
      · by_cases h1 : visit.getD idx 0 = 1
        · refine Or.inr ⟨vals.set idx NodeVals.init, vals'.set idx NodeVals.init,
            visit.set idx 2, ?_, ?_, ?_, ?_, ?_, ?_, ?_, ?_⟩
          · simp only [buildNode]
            rw [if_neg hidx, if_neg h2, if_pos h1]
          · simp only [buildNode]
            rw [if_neg hidx, if_neg h2, if_pos h1]
          · rw [List.length_set]; exact hlv
          · rw [List.length_set]; exact hlv'
          · rw [List.length_set]; exact hlvis
          · intro i hi
            by_cases hii : idx = i
            · subst hii
              rw [getD_set_self _ _ _ _ (by omega), getD_set_self _ _ _ _ (by omega)]
            · rw [getD_set_ne _ _ _ _ _ hii, getD_set_ne _ _ _ _ _ hii]
              exact hag i (by rwa [getD_set_ne _ _ _ _ _ hii] at hi)
          · intro i hi
            by_cases hii : idx = i
            · subst hii
              rw [getD_set_self _ _ _ _ (by omega)]
            · rw [getD_set_ne _ _ _ _ _ hii]
              exact hi
          · intro _
            rw [getD_set_self _ _ _ _ (by omega)]
        · by_cases hp : 0 ≤ (model.nodes.getD idx Node.dflt).parentId ∧
            (model.nodes.getD idx Node.dflt).parentId.toNat < model.nodes.length ∧
            (model.nodes.getD idx Node.dflt).parentId ≠ (idx : ℤ)
          · have hag1 : ∀ i, (visit.set idx 1).getD i 0 = 2 →
                vals.getD i NodeVals.init = vals'.getD i NodeVals.init := by
              intro i hi
              by_cases hii : idx = i
              · subst hii
                rw [getD_set_self _ _ _ _ (by omega)] at hi
                omega
              · rw [getD_set_ne _ _ _ _ _ hii] at hi
                exact hag i hi
            have hrec := ih (model.nodes.getD idx Node.dflt).parentId.toNat vals vals'
              (visit.set idx 1) hlv hlv' (by rw [List.length_set]; exact hlvis) hag1
            rcases hrec with ⟨hn1, hn1'⟩ | ⟨vals1, vals1', visit2, e1, e1', l1, l1', l2,
              ag2, mono2, post2⟩
            · refine Or.inl ⟨?_, ?_⟩
              · simp only [buildNode]
                rw [if_neg hidx, if_neg h2, if_neg h1, if_pos hp, hn1]
              · simp only [buildNode]
                rw [if_neg hidx, if_neg h2, if_neg h1, if_pos hp, hn1']
            · have hpv : vals1.getD (model.nodes.getD idx Node.dflt).parentId.toNat
                  NodeVals.init =
                  vals1'.getD (model.nodes.getD idx Node.dflt).parentId.toNat
                    NodeVals.init :=
                ag2 _ (post2 hp.2.1)
              have hmem : model.nodes.getD idx Node.dflt ∈ model.nodes := by
                have hlt : idx < model.nodes.length := by omega
                rw [List.getD_eq_getElem model.nodes Node.dflt hlt]
                exact List.getElem_mem hlt
              have hnv : computeNodeVals
                  (vals1.getD (model.nodes.getD idx Node.dflt).parentId.toNat NodeVals.init)
                  ((vals1.getD idx NodeVals.init).worldLoc)
                  (model.nodes.getD idx Node.dflt) t model.globalSequencesMs =
                  computeNodeVals
                  (vals1'.getD (model.nodes.getD idx Node.dflt).parentId.toNat NodeVals.init)
                  ((vals1'.getD idx NodeVals.init).worldLoc)
                  (model.nodes.getD idx Node.dflt) t model.globalSequencesMs := by
                rw [hpv]
                exact computeNodeVals_oldLoc_irrelevant _ _ _ _ _ _ (hf _ hmem)
              refine Or.inr ⟨vals1.set idx (computeNodeVals
                  (vals1.getD (model.nodes.getD idx Node.dflt).parentId.toNat NodeVals.init)
                  ((vals1.getD idx NodeVals.init).worldLoc)
                  (model.nodes.getD idx Node.dflt) t model.globalSequencesMs),
                vals1'.set idx (computeNodeVals
                  (vals1'.getD (model.nodes.getD idx Node.dflt).parentId.toNat NodeVals.init)
                  ((vals1'.getD idx NodeVals.init).worldLoc)
                  (model.nodes.getD idx Node.dflt) t model.globalSequencesMs),
                visit2.set idx 2, ?_, ?_, ?_, ?_, ?_, ?_, ?_, ?_⟩
              · simp only [buildNode]
                rw [if_neg hidx, if_neg h2, if_neg h1, if_pos hp, e1]
                dsimp only
                rw [if_pos hp]
              · simp only [buildNode]
                rw [if_neg hidx, if_neg h2, if_neg h1, if_pos hp, e1']
                dsimp only
                rw [if_pos hp]
              · rw [List.length_set]; exact l1
              · rw [List.length_set]; exact l1'
              · rw [List.length_set]; exact l2
              · intro i hi
                by_cases hii : idx = i
                · subst hii
                  rw [getD_set_self _ _ _ _ (by omega), getD_set_self _ _ _ _ (by omega)]
                  exact hnv
                · rw [getD_set_ne _ _ _ _ _ hii, getD_set_ne _ _ _ _ _ hii]
                  exact ag2 i (by rwa [getD_set_ne _ _ _ _ _ hii] at hi)
              · intro i hi
                by_cases hii : idx = i
                · subst hii
                  rw [getD_set_self _ _ _ _ (by omega)]
                · rw [getD_set_ne _ _ _ _ _ hii]
                  exact mono2 i (by
                    rw [getD_set_ne _ _ _ _ _ hii]
                    exact hi)
              · intro _
                rw [getD_set_self _ _ _ _ (by omega)]
          · refine Or.inr ⟨vals.set idx (computeNodeVals NodeVals.init
                ((vals.getD idx NodeVals.init).worldLoc)
                (model.nodes.getD idx Node.dflt) t model.globalSequencesMs),
              vals'.set idx (computeNodeVals NodeVals.init
                ((vals'.getD idx NodeVals.init).worldLoc)
                (model.nodes.getD idx Node.dflt) t model.globalSequencesMs),
              (visit.set idx 1).set idx 2, ?_, ?_, ?_, ?_, ?_, ?_, ?_, ?_⟩
            · simp only [buildNode]
              rw [if_neg hidx, if_neg h2, if_neg h1, if_neg hp]
              dsimp only
              rw [if_neg hp]
            · simp only [buildNode]
              rw [if_neg hidx, if_neg h2, if_neg h1, if_neg hp]
              dsimp only
              rw [if_neg hp]
            · rw [List.length_set]; exact hlv
            · rw [List.length_set]; exact hlv'
            · rw [List.length_set, List.length_set]; exact hlvis
            · have hmem : model.nodes.getD idx Node.dflt ∈ model.nodes := by
                have hlt : idx < model.nodes.length := by omega
                rw [List.getD_eq_getElem model.nodes Node.dflt hlt]
                exact List.getElem_mem hlt
              intro i hi
              by_cases hii : idx = i
              · subst hii
                rw [getD_set_self _ _ _ _ (by omega), getD_set_self _ _ _ _ (by omega)]
                exact computeNodeVals_oldLoc_irrelevant _ _ _ _ _ _ (hf _ hmem)
              · rw [getD_set_ne _ _ _ _ _ hii, getD_set_ne _ _ _ _ _ hii]
                exact hag i (by
                  rw [getD_set_ne _ _ _ _ _ hii, getD_set_ne _ _ _ _ _ hii] at hi
                  exact hi)
            · intro i hi
              by_cases hii : idx = i
              · subst hii
                rw [getD_set_self _ _ _ _ (by simp [List.length_set]; omega)]
              · rw [getD_set_ne _ _ _ _ _ hii, getD_set_ne _ _ _ _ _ hii]
                exact hi
            · intro _
              rw [getD_set_self _ _ _ _ (by simp [List.length_set]; omega)]
/-- `none` is absorbing for the per-node evaluation fold. -/
theorem buildFold_none (model : ModelData) (t : ℕ) (ixs : List ℕ) :
    ixs.foldl (fun st i =>
      match st with
      | none => none
      | some s => buildNode model t (model.nodes.length + 1) s i) none = none := by
  induction ixs with
  | nil => rfl
  | cons j rest ih => exact ih

/-- The fold of `buildNode` over a list of node indices preserves the
two-run lockstep invariant and marks every processed in-range index done. -/
theorem buildFold_congr (model : ModelData) (t : ℕ)
    (hf : ∀ nd ∈ model.nodes, nd.flags &&& 1 = 0) :
    ∀ (ixs : List ℕ) (vals vals' : List NodeVals) (visit : List ℕ),
      vals.length = model.nodes.length →
      vals'.length = model.nodes.length →
      visit.length = model.nodes.length →
      (∀ i, visit.getD i 0 = 2 → vals.getD i NodeVals.init = vals'.getD i NodeVals.init) →
      (ixs.foldl (fun st i =>
        match st with
        | none => none
        | some s => buildNode model t (model.nodes.length + 1) s i)
          (some (vals, visit)) = none ∧
       ixs.foldl (fun st i =>
        match st with
        | none => none
        | some s => buildNode model t (model.nodes.length + 1) s i)
          (some (vals', visit)) = none) ∨
      (∃ w w' vis,
        ixs.foldl (fun st i =>
          match st with
          | none => none
          | some s => buildNode model t (model.nodes.length + 1) s i)
            (some (vals, visit)) = some (w, vis) ∧
        ixs.foldl (fun st i =>
          match st with
          | none => none
          | some s => buildNode model t (model.nodes.length + 1) s i)
            (some (vals', visit)) = some (w', vis) ∧
        w.length = model.nodes.length ∧ w'.length = model.nodes.length ∧
        vis.length = model.nodes.length ∧
        (∀ i, vis.getD i 0 = 2 → w.getD i NodeVals.init = w'.getD i NodeVals.init) ∧
        (∀ i, visit.getD i 0 = 2 → vis.getD i 0 = 2) ∧
        (∀ j ∈ ixs, j < model.nodes.length → vis.getD j 0 = 2)) := by
  intro ixs
  induction ixs with
  | nil =>
    intro vals vals' visit hlv hlv' hlvis hag
    exact Or.inr ⟨vals, vals', visit, rfl, rfl, hlv, hlv', hlvis, hag, fun i h => h,
      fun j hj => absurd hj (List.not_mem_nil j)⟩
  | cons j rest ih =>
    intro vals vals' visit hlv hlv' hlvis hag
    rw [List.foldl_cons, List.foldl_cons]
    dsimp only
    rcases buildNode_state_congr model t hf (model.nodes.length + 1) j vals vals' visit
        hlv hlv' hlvis hag with ⟨hn, hn'⟩ |
        ⟨v1, v1', vis2, e1, e1', l1, l1', l2, ag2, mono2, post2⟩
    · rw [hn, hn']
      exact Or.inl ⟨buildFold_none model t rest, buildFold_none model t rest⟩
    · rw [e1, e1']
      rcases ih v1 v1' vis2 l1 l1' l2 ag2 with ⟨a, b⟩ |
          ⟨w, w', vis, f1, f1', m1, m1', m2, agF, monoF, doneF⟩
      · exact Or.inl ⟨a, b⟩
      · refine Or.inr ⟨w, w', vis, f1, f1', m1, m1', m2, agF,
          fun i hi => monoF i (mono2 i hi), ?_⟩
        intro j2 hj2 hlt
        rcases List.mem_cons.mp hj2 with rfl | hmem
        · exact monoF j2 (post2 hlt)
        · exact doneF j2 hmem hlt

/-- C7 amended: the transform evaluator is stateful through the previous
evaluation's `nodeWorldLoc_` contents, which the DontInheritTranslation
branch reads back; but when NO node carries that flag (bit 0x1), the
evaluator is a pure function of the document and query time — its result
does not depend on the previous per-node state at all. -/
theorem c7_amended_pure_without_dontInheritTranslation (model : ModelData) (t : ℕ)
    (prev prev' : List NodeVals)
    (hf : ∀ nd ∈ model.nodes, nd.flags &&& 1 = 0) :
    buildNodeWorldCached model t prev = buildNodeWorldCached model t prev' := by
  unfold buildNodeWorldCached
  dsimp only
  have hl0 : ∀ p : List NodeVals,
      (if p.length ≠ model.nodes.length then
        List.replicate model.nodes.length NodeVals.init else p).length =
        model.nodes.length := by
    intro p
    split_ifs with h
    · exact List.length_replicate _ _
    · omega
  have hag0 : ∀ i, (List.replicate model.nodes.length (0 : ℕ)).getD i 0 = 2 →
      (if prev.length ≠ model.nodes.length then
        List.replicate model.nodes.length NodeVals.init else prev).getD i NodeVals.init =
      (if prev'.length ≠ model.nodes.length then
        List.replicate model.nodes.length NodeVals.init else prev').getD i NodeVals.init := by
    intro i hi
    rw [getD_replicate_self] at hi
    exact absurd hi (by decide)
  rcases buildFold_congr model t hf (List.range model.nodes.length)
      (if prev.length ≠ model.nodes.length then
        List.replicate model.nodes.length NodeVals.init else prev)
      (if prev'.length ≠ model.nodes.length then
        List.replicate model.nodes.length NodeVals.init else prev')
      (List.replicate model.nodes.length 0)
      (hl0 prev) (hl0 prev') (List.length_replicate _ _) hag0 with ⟨hn, hn'⟩ |
      ⟨w, w', vis, f1, f1', m1, m1', m2, agF, monoF, doneF⟩
  · rw [hn, hn']
  · have hww : w = w' := by
      apply List.ext_getElem (by omega)
      intro i h1 h2
      have hi2 : vis.getD i 0 = 2 :=
        doneF i (List.mem_range.mpr (by omega)) (by omega)
      have hgi := agF i hi2
      rwa [List.getD_eq_getElem w NodeVals.init (by omega),
        List.getD_eq_getElem w' NodeVals.init (by omega)] at hgi
    rw [f1, f1', hww]

theorem c7_amended_witness :
    buildNodeWorldCached
        { nodes := [{ nodeId := 0, parentId := -1,
                      trackTranslation := oneKeyV3 ⟨1, 0, 0⟩ }] } 0 [] =
      buildNodeWorldCached
        { nodes := [{ nodeId := 0, parentId := -1,
                      trackTranslation := oneKeyV3 ⟨1, 0, 0⟩ }] } 0
        [{ worldLoc := ⟨5, 5, 5⟩ }] :=
  c7_amended_pure_without_dontInheritTranslation _ 0 _ _ (by decide)

end

end War3